import Mathlib

/-!
# cadastro_empresas_go: a shallow embedding of the CRUD handlers, the Mongo
repository and the websocket hub

Go strings are modelled as Lean strings (sequences of code points), Go `int` as
`Int` with the 64-bit range made explicit where the code can observe it, Go
`error` values as an `Option GoError` (`none` is `nil`).  Calls to collaborators
(the store, the publisher, the Mongo driver) are recorded in a trace that each
operation returns next to its result.
-/

namespace Matriz

/-! ## Library functions used by the source (`strings`, `unicode`, `mime`, `strconv`) -/

/-- Go `unicode.IsSpace`: the Unicode White_Space code points. -/
def isSpace (c : Char) : Bool :=
  let n := c.toNat
  n == 0x09 || n == 0x0A || n == 0x0B || n == 0x0C || n == 0x0D || n == 0x20 ||
  n == 0x85 || n == 0xA0 || n == 0x1680 || (0x2000 ≤ n && n ≤ 0x200A) ||
  n == 0x2028 || n == 0x2029 || n == 0x202F || n == 0x205F || n == 0x3000

/-- Leading and trailing white space removed from a list of code points. -/
def trimSpaceChars (l : List Char) : List Char :=
  ((l.dropWhile isSpace).reverse.dropWhile isSpace).reverse

/-- Go `strings.TrimSpace`. -/
def TrimSpace (s : String) : String := ⟨trimSpaceChars s.data⟩

/-- Go `strings.TrimLeftFunc(s, unicode.IsSpace)` on code points. -/
def trimLeftSpace (l : List Char) : List Char := l.dropWhile isSpace

/-- Go `unicode.ToLower` restricted to what can produce an ASCII letter: the
ASCII capitals, U+0130 (to `i`) and U+212A (to `k`).  Every other code point
with a lower-case form maps a non-ASCII letter to a non-ASCII letter; those are
left unchanged here, which cannot change a comparison with an ASCII string. -/
def toLowerRune (c : Char) : Char :=
  if c.toNat = 0x130 then 'i'
  else if c.toNat = 0x212A then 'k'
  else c.toLower

/-- Go `strings.ToLower`. -/
def ToLower (s : String) : String := ⟨s.data.map toLowerRune⟩

/-- Go `strings.HasPrefix`. -/
def HasPrefix (s pre : String) : Bool := pre.data.isPrefixOf s.data

/-- Go `mime.isTSpecial`: the RFC 1521 / RFC 2045 tspecials. -/
def isTSpecial (c : Char) : Bool :=
  "()<>@,;:\\\"/[]?=".data.contains c

/-- Go `mime.isTokenChar`. -/
def isTokenChar (c : Char) : Bool :=
  decide (0x20 < c.toNat) && decide (c.toNat < 0x7f) && !isTSpecial c

/-- Go `mime.consumeToken`: the longest prefix of token characters and the rest. -/
def consumeToken (v : List Char) : List Char × List Char :=
  (v.takeWhile isTokenChar, v.dropWhile isTokenChar)

/-- Go `mime.checkMediaTypeDisposition`: `true` when the library reports no
error, that is for a token alone or a token, a slash and a token. -/
def checkMediaTypeDisposition (s : List Char) : Bool :=
  match consumeToken s with
  | ([], _) => false
  | (_ :: _, rest) =>
    match rest with
    | [] => true
    | '/' :: afterSlash =>
      match consumeToken afterSlash with
      | ([], _) => false
      | (_ :: _, rest2) => rest2.isEmpty
    | _ => false

/-- Go `mime.consumeValue` for a quoted string starting after the opening quote:
the decoded value and what follows the closing quote, or `none` when the quote
is not closed or a line break is met. -/
def consumeQuoted : List Char → List Char → Option (List Char × List Char)
  | [], _ => none
  | '"' :: rest, acc => some (acc.reverse, rest)
  | '\\' :: c :: rest, acc =>
    if isTSpecial c then consumeQuoted rest (c :: acc)
    -- the backslash is kept and `c`, which is neither a quote nor a backslash, is read next
    else if c = '\r' ∨ c = '\n' then none
    else consumeQuoted rest (c :: '\\' :: acc)
  | c :: rest, acc =>
    if c = '\r' ∨ c = '\n' then none else consumeQuoted rest (c :: acc)

/-- Go `mime.consumeValue`. -/
def consumeValue (v : List Char) : List Char × List Char :=
  match v with
  | [] => ([], [])
  | '"' :: rest =>
    match consumeQuoted rest [] with
    | some res => res
    | none => ([], v)
  | _ => consumeToken v

/-- Go `mime.consumeMediaParam`: `(param, value, rest)`, with an empty `param`
and `rest = v` when no parameter can be read. -/
def consumeMediaParam (v : List Char) : List Char × List Char × List Char :=
  match trimLeftSpace v with
  | ';' :: rest0 =>
    let (param0, rest1) := consumeToken (trimLeftSpace rest0)
    let param := param0.map toLowerRune
    if param.isEmpty then ([], [], v)
    else
      match trimLeftSpace rest1 with
      | '=' :: rest2 =>
        let rest3 := trimLeftSpace rest2
        let (value, rest4) := consumeValue rest3
        if value.isEmpty && rest4 == rest3 then ([], [], v)
        else (param, value, rest4)
      | _ => ([], [], v)
  | _ => ([], [], v)

/-- The name under which Go `mime.ParseMediaType` files a parameter: parameters
whose name has a `*` go to the continuation map of the part before the `*`. -/
def paramBucket (key : List Char) : Option (List Char) :=
  if key.contains '*' then some (key.takeWhile (· ≠ '*')) else none

/-- The parameter loop of Go `mime.ParseMediaType`: `true` when it stops with
"mime: duplicate parameter name", the only outcome of the loop that changes the
media type returned (to the empty string).  `seen` is the parameters stored so
far, each with the map it was stored in. -/
def paramsDuplicate : Nat → List Char → List (Option (List Char) × List Char × List Char) → Bool
  | 0, _, _ => false
  | fuel + 1, v, seen =>
    match trimLeftSpace v with
    | [] => false
    | v1 =>
      let (key, value, rest) := consumeMediaParam v1
      if key.isEmpty then false
      else
        let bucket := paramBucket key
        if seen.any (fun p => p.1 == bucket && p.2.1 == key && p.2.2 != value) then true
        else paramsDuplicate fuel rest ((bucket, key, value) :: seen)

/-- The media type returned by Go `mime.ParseMediaType(v)`, its first result
(the parameters and the error are discarded by the caller).  It is the
lower-cased, trimmed text before the first `;` when that text passes
`checkMediaTypeDisposition` and the parameters do not repeat a name with
different values, and the empty string otherwise. -/
def ParseMediaType (v : String) : String :=
  let base := v.data.takeWhile (· ≠ ';')
  let mediatype := trimSpaceChars (base.map toLowerRune)
  if !checkMediaTypeDisposition mediatype then ""
  else if paramsDuplicate (v.data.length + 1) (v.data.drop base.length) [] then ""
  else ⟨mediatype⟩

/-- The value of a decimal digit string, most significant digit first, or
`none` when a character is not an ASCII digit. -/
def parseDigits : List Char → Nat → Option Nat
  | [], acc => some acc
  | c :: cs, acc =>
    if '0' ≤ c ∧ c ≤ '9' then parseDigits cs (acc * 10 + (c.toNat - '0'.toNat)) else none

/-- Go `strconv.Atoi` for the 64-bit `int`: an optional sign, then one or more
ASCII digits, the value within `[-2^63, 2^63 - 1]`; `none` stands for a non-nil
error (syntax or range). -/
def Atoi (s : String) : Option Int :=
  match s.data with
  | [] => none
  | '-' :: ds =>
    if ds.isEmpty then none
    else match parseDigits ds 0 with
      | some n => if n ≤ 2 ^ 63 then some (-(n : Int)) else none
      | none => none
  | '+' :: ds =>
    if ds.isEmpty then none
    else match parseDigits ds 0 with
      | some n => if n < 2 ^ 63 then some (n : Int) else none
      | none => none
  | ds =>
    match parseDigits ds 0 with
    | some n => if n < 2 ^ 63 then some (n : Int) else none
    | none => none

/-- Go `url.Values`: a map from a key to the list of its values. -/
abbrev Values := List (String × List String)

/-- Go `url.Values.Get`: the first value of the key, or the empty string. -/
def Values.Get (form : Values) (key : String) : String :=
  match form.lookup key with
  | some (v :: _) => v
  | _ => ""

/-! ## `internal/models` -/

/-- The record `models.Empresa`. -/
structure Empresa where
  ID : String
  CNPJ : String
  NomeFantasia : String
  RazaoSocial : String
  Endereco : String
  NumFuncionarios : Int
  NumMinPCD : Int
deriving DecidableEq, Repr

/-- The Go zero value `var e models.Empresa`. -/
def Empresa.zero : Empresa := ⟨"", "", "", "", "", 0, 0⟩

/-- A Go `error` value: its `Error()` text and whether the Mongo driver's
`mongo.IsDuplicateKeyError` holds of it. -/
structure GoError where
  msg : String
  isDuplicateKey : Bool
deriving DecidableEq, Repr

/-- Go `errors.New`. -/
def errorsNew (msg : String) : GoError := ⟨msg, false⟩

/-- Go `http.ErrNotSupported`. -/
def ErrNotSupported : GoError := ⟨"feature not supported", false⟩

/-- The driver's `mongo.ErrNoDocuments`. -/
def ErrNoDocuments : GoError := ⟨"mongo: no documents in result", false⟩

/-! ## `internal/validation` -/

/-- `validation.ValidateCNPJ`. -/
def ValidateCNPJ (cnpj : String) : Option GoError :=
  let cnpj := TrimSpace cnpj
  if cnpj = "" then some (errorsNew "cnpj obrigatório") else none

/-! ## `internal/repository`: the Mongo repository over the driver -/

/-- A BSON value as the repository builds it. -/
inductive BsonValue where
  | objectID (bytes : List Nat)
  | string (s : String)
  | int (n : Int)
deriving DecidableEq, Repr

/-- A BSON document (`bson.M`, or a marshalled struct): keys with their values. -/
abbrev BsonDoc := List (String × BsonValue)

/-- Go `encoding/hex`: the value of one hexadecimal digit, either case. -/
def fromHexChar (c : Char) : Option Nat :=
  if '0' ≤ c ∧ c ≤ '9' then some (c.toNat - '0'.toNat)
  else if 'a' ≤ c ∧ c ≤ 'f' then some (c.toNat - 'a'.toNat + 10)
  else if 'A' ≤ c ∧ c ≤ 'F' then some (c.toNat - 'A'.toNat + 10)
  else none

/-- Go `hex.Decode`: each pair of digits gives a byte; a character that is not a
hexadecimal digit, or a digit left alone at the end, is an error. -/
def hexDecode : List Char → Option (List Nat)
  | [] => some []
  | [_] => none
  | p :: q :: rest =>
    match fromHexChar p, fromHexChar q with
    | some a, some b =>
      match hexDecode rest with
      | some bytes => some ((a * 16 + b) :: bytes)
      | none => none
    | _, _ => none

/-- The driver's `primitive.ObjectIDFromHex`: `none` stands for a non-nil error
(`len(s) != 24`, the length in bytes, or a failed `hex.Decode`). -/
def ObjectIDFromHex (s : String) : Option (List Nat) :=
  if s.utf8ByteSize ≠ 24 then none
  else hexDecode s.data

/-- The lower-case hexadecimal digit of a value below 16. -/
def hexDigit (n : Nat) : Char := "0123456789abcdef".data.getD n '0'

/-- The driver's `ObjectID.Hex`. -/
def ObjectIDHex (oid : List Nat) : String :=
  ⟨oid.flatMap (fun b => [hexDigit (b / 16), hexDigit (b % 16)])⟩

/-- The marshalling of `*models.Empresa` by its `bson` struct tags; `_id` is
`omitempty`. -/
def Empresa.toBson (e : Empresa) : BsonDoc :=
  (if e.ID = "" then [] else [("_id", BsonValue.string e.ID)]) ++
  [("cnpj", .string e.CNPJ), ("nome_fantasia", .string e.NomeFantasia),
   ("razao_social", .string e.RazaoSocial), ("endereco", .string e.Endereco),
   ("num_funcionarios", .int e.NumFuncionarios), ("num_min_pcd", .int e.NumMinPCD)]

/-- The dynamic value of `res.InsertedID`. -/
inductive InsertedID where
  | objectID (oid : List Nat)
  | string (s : String)
  | other
deriving DecidableEq, Repr

/-- The `*mongo.Collection` as the repository uses it: what each driver call
returns (`Except.error` for a non-nil error, a timeout included).  `FindOne`
stands for `FindOne(ctx, filter).Decode(&e)`; `UpdateOne` takes the filter and
the document under `$set`; `DeleteOne` returns the `DeletedCount`. -/
structure Collection where
  InsertOne : Empresa → Except GoError InsertedID
  FindOne : BsonDoc → Except GoError Empresa
  UpdateOne : BsonDoc → BsonDoc → Option GoError
  DeleteOne : BsonDoc → Except GoError Nat

/-- A call the repository makes to the driver. -/
inductive DriverCall where
  | insertOne (doc : Empresa)
  | findOne (filter : BsonDoc)
  | updateOne (filter : BsonDoc) (set : BsonDoc)
  | deleteOne (filter : BsonDoc)
deriving DecidableEq, Repr

/-- `EmpresaRepo.Create`. -/
def EmpresaRepo.Create (col : Collection) (e : Empresa) :
    (String × Option GoError) × List DriverCall :=
  match col.InsertOne e with
  | .error err =>
    if err.isDuplicateKey then (("", some (errorsNew "cnpj já cadastrado")), [.insertOne e])
    else (("", some err), [.insertOne e])
  | .ok id =>
    match id with
    | .objectID v => ((ObjectIDHex v, none), [.insertOne e])
    | .string v => ((v, none), [.insertOne e])
    | .other => (("", none), [.insertOne e])

/-- `EmpresaRepo.Get`. -/
def EmpresaRepo.Get (col : Collection) (id : String) :
    (Option Empresa × Option GoError) × List DriverCall :=
  let (res, calls) :=
    match ObjectIDFromHex id with
    | some objID => (col.FindOne [("_id", .objectID objID)], [DriverCall.findOne [("_id", .objectID objID)]])
    | none => (col.FindOne [("_id", .string id)], [DriverCall.findOne [("_id", .string id)]])
  match res with
  | .error err => ((none, some err), calls)
  | .ok e => ((some e, none), calls)

/-- `EmpresaRepo.Update`. -/
def EmpresaRepo.Update (col : Collection) (id : String) (e : Empresa) :
    Option GoError × List DriverCall :=
  let filter : BsonDoc :=
    match ObjectIDFromHex id with
    | some obj => [("_id", .objectID obj)]
    | none => [("_id", .string id)]
  match col.UpdateOne filter e.toBson with
  | some err =>
    if err.isDuplicateKey then (some (errorsNew "cnpj já cadastrado"), [.updateOne filter e.toBson])
    else (some err, [.updateOne filter e.toBson])
  | none => (none, [.updateOne filter e.toBson])

/-- `EmpresaRepo.Delete`. -/
def EmpresaRepo.Delete (col : Collection) (id : String) : Option GoError × List DriverCall :=
  let filter : BsonDoc :=
    match ObjectIDFromHex id with
    | some obj => [("_id", .objectID obj)]
    | none => [("_id", .string id)]
  match col.DeleteOne filter with
  | .error err => (some err, [.deleteOne filter])
  | .ok _ => (none, [.deleteOne filter])

/-! ## `internal/httpapi`: request decoding -/

/-- What the handlers read of an `*http.Request`: the `Content-Type` header, the
value of `r.Form` once `r.ParseForm()` has run, the value of `r.Form` once
`r.ParseMultipartForm(10 << 20)` has run, and the `id` URL parameter. -/
structure Request where
  contentType : String
  formParsed : Values
  formMultipart : Values
  urlParamID : String
deriving DecidableEq, Repr

/-- The form that `parseEmpresaFromRequest` reads its fields from: `r.Form` after
`ParseMultipartForm` when the lower-cased media type starts with `multipart/`,
after `ParseForm` otherwise. -/
def Request.Form (r : Request) : Values :=
  if HasPrefix (ToLower (ParseMediaType r.contentType)) "multipart/" then r.formMultipart
  else r.formParsed

/-- `httpapi.parseEmpresaFromRequest`. -/
def parseEmpresaFromRequest (r : Request) : Empresa × Option GoError :=
  let e := Empresa.zero
  let ct := r.contentType
  let mediatype := ParseMediaType ct
  let lowered := ToLower mediatype
  if lowered = "application/x-www-form-urlencoded" ∨ lowered = "multipart/form-data"
      ∨ lowered = "" then
    let form := r.Form
    let e := { e with CNPJ := TrimSpace (form.Get "cnpj") }
    let e := { e with NomeFantasia := TrimSpace (form.Get "nome_fantasia") }
    let e := { e with RazaoSocial := TrimSpace (form.Get "razao_social") }
    let e := { e with Endereco := TrimSpace (form.Get "endereco") }
    let v := TrimSpace (form.Get "num_funcionarios")
    let e := if v ≠ "" then
        match Atoi v with
        | some n => { e with NumFuncionarios := n }
        | none => e
      else e
    let v := TrimSpace (form.Get "num_min_pcd")
    let e := if v ≠ "" then
        match Atoi v with
        | some n => { e with NumMinPCD := n }
        | none => e
      else e
    (e, none)
  else (e, some ErrNotSupported)

/-! ## `internal/httpapi`: the server and its collaborators -/

/-- The interface `repository.EmpresaStore` as the handlers use it: what each
method returns.  A handler calls each method at most once per request. -/
structure EmpresaStore where
  Create : Empresa → String × Option GoError
  Get : String → Option Empresa × Option GoError
  Update : String → Empresa → Option GoError
  Delete : String → Option GoError

/-- The `*EmpresaRepo` over a collection, seen through the interface. -/
def EmpresaRepo.store (col : Collection) : EmpresaStore where
  Create := fun e => (EmpresaRepo.Create col e).1
  Get := fun id => (EmpresaRepo.Get col id).1
  Update := fun id e => (EmpresaRepo.Update col id e).1
  Delete := fun id => (EmpresaRepo.Delete col id).1

/-- The `messaging.Publisher` as the handlers use it: what `Publish` returns. -/
structure Publisher where
  Publish : String → Option GoError

/-- A call a handler makes to a collaborator. -/
inductive Call where
  | repoCreate (e : Empresa)
  | repoGet (id : String)
  | repoUpdate (id : String) (e : Empresa)
  | repoDelete (id : String)
  | publish (msg : String)
deriving DecidableEq, Repr

/-- Whether the call goes to the store. -/
def Call.isStore : Call → Bool
  | .publish _ => false
  | _ => true

/-- Whether the call goes to the publisher. -/
def Call.isPublish : Call → Bool
  | .publish _ => true
  | _ => false

/-- The value handed to `writeJSON`: a `map[string]string`, or a
`*models.Empresa` (`none` is the nil pointer). -/
inductive Body where
  | object (fields : List (String × String))
  | empresa (e : Option Empresa)
deriving DecidableEq, Repr

/-- What a handler writes: the status and the JSON body. -/
structure Response where
  status : Nat
  body : Body
deriving DecidableEq, Repr

/-- `httpapi.Server`; `pub` is `none` for a nil publisher. -/
structure Server where
  repo : EmpresaStore
  pub : Option Publisher

/-- `httpapi.writeJSON` for a non-nil value. -/
def writeJSON (status : Nat) (v : Body) : Response := ⟨status, v⟩

/-- `httpapi.writeError`. -/
def writeError (status : Nat) (msg : String) : Response :=
  writeJSON status (.object [("error", msg)])

/-- The publish step shared by the handlers: `if s.pub != nil` then
`_ = s.pub.Publish(msg)`, the returned error being discarded. -/
def Server.publish (s : Server) (msg : String) : List Call :=
  match s.pub with
  | some p =>
    let _ := p.Publish msg
    [.publish msg]
  | none => []

/-- `Server.create`, POST /empresas. -/
def Server.create (s : Server) (r : Request) : Response × List Call :=
  match parseEmpresaFromRequest r with
  | (_, some _) => (writeError 400 "form inválido", [])
  | (e, none) =>
    match ValidateCNPJ e.CNPJ with
    | some err => (writeError 400 err.msg, [])
    | none =>
      match s.repo.Create e with
      | (_, some err) => (writeError 400 err.msg, [.repoCreate e])
      | (id, none) =>
        let pubCalls := s.publish ("Cadastro de EMPRESA " ++ e.NomeFantasia)
        (writeJSON 201 (.object [("id", id)]), .repoCreate e :: pubCalls)

/-- `Server.get`, GET /empresas/{id}. -/
def Server.get (s : Server) (r : Request) : Response × List Call :=
  let id := r.urlParamID
  match s.repo.Get id with
  | (_, some _) => (writeError 404 "não encontrado", [.repoGet id])
  | (item, none) => (writeJSON 200 (.empresa item), [.repoGet id])

/-- `Server.update`, PUT /empresas/{id}. -/
def Server.update (s : Server) (r : Request) : Response × List Call :=
  let id := r.urlParamID
  match parseEmpresaFromRequest r with
  | (_, some _) => (writeError 400 "form inválido", [])
  | (e, none) =>
    match ValidateCNPJ e.CNPJ with
    | some err => (writeError 400 err.msg, [])
    | none =>
      match s.repo.Update id e with
      | some err => (writeError 400 err.msg, [.repoUpdate id e])
      | none =>
        let pubCalls := s.publish ("Edição da EMPRESA " ++ e.NomeFantasia)
        (writeJSON 200 (.object [("status", "ok")]), .repoUpdate id e :: pubCalls)

/-- `Server.delete`, DELETE /empresas/{id}. -/
def Server.delete (s : Server) (r : Request) : Response × List Call :=
  let id := r.urlParamID
  let (item, _) := s.repo.Get id
  match s.repo.Delete id with
  | some err => (writeError 500 err.msg, [.repoGet id, .repoDelete id])
  | none =>
    let name := match item with
      | some it => it.NomeFantasia
      | none => ""
    let pubCalls := s.publish ("Exclusão da EMPRESA " ++ name)
    (writeJSON 200 (.object [("status", "ok")]), [.repoGet id, .repoDelete id] ++ pubCalls)

/-! ## The test doubles of `handlers_test.go` -/

/-- The `fakeRepo` of the handler tests. -/
def fakeRepo : EmpresaStore where
  Create := fun _ => ("1", none)
  Get := fun id => (some { Empresa.zero with ID := id }, none)
  Update := fun _ _ => none
  Delete := fun _ => none

/-- The `nopPub` of the handler tests. -/
def nopPub : Publisher where
  Publish := fun _ => none

/-- A publisher whose every `Publish` fails. -/
def failingPub : Publisher where
  Publish := fun _ => some (errorsNew "channel closed")

/-- The request of `TestCreateValidation`: a URL-encoded form with no `cnpj`. -/
def reqNoCNPJ : Request :=
  ⟨"application/x-www-form-urlencoded", [("nome_fantasia", ["X"])], [], "1"⟩

/-- The request of `TestCreateFormURLEncoded` and `TestUpdateFormURLEncoded`. -/
def reqLojaX : Request :=
  ⟨"application/x-www-form-urlencoded",
   [("cnpj", ["12345678000199"]), ("nome_fantasia", ["Loja X"])], [], "1"⟩

/-- A collection on which every insert and update hits the unique index on
`cnpj`, every lookup finds nothing and every delete matches nothing. -/
def dupCol : Collection where
  InsertOne := fun _ => .error ⟨"E11000 duplicate key error index: cnpj_1", true⟩
  FindOne := fun _ => .error ErrNoDocuments
  UpdateOne := fun _ _ => some ⟨"E11000 duplicate key error index: cnpj_1", true⟩
  DeleteOne := fun _ => .ok 0

/-- A collection on which every call runs into the deadline of its context. -/
def timeoutCol : Collection where
  InsertOne := fun _ => .error ⟨"context deadline exceeded", false⟩
  FindOne := fun _ => .error ⟨"context deadline exceeded", false⟩
  UpdateOne := fun _ _ => some ⟨"context deadline exceeded", false⟩
  DeleteOne := fun _ => .error ⟨"context deadline exceeded", false⟩

/-- An update form with padded values, an integer field that is not an integer
and one that is. -/
def reqBadInt : Request :=
  ⟨"application/x-www-form-urlencoded",
   [("cnpj", [" 12345678000199 "]), ("num_funcionarios", ["12x"]), ("num_min_pcd", [" 7 "])],
   [], "1"⟩

/-- Whether a character is a hexadecimal digit, either case. -/
def isHexDigit (c : Char) : Bool := (fromHexChar c).isSome

/-- A POST with no `Content-Type` header whose `cnpj` comes with the URL query
(`ParseForm` reads the query whatever the body is). -/
def reqNoHeader : Request := ⟨"", [("cnpj", ["12345678000199"])], [], ""⟩

/-- The same with a malformed `Content-Type` header, a type with no subtype. -/
def reqMalformedHeader : Request := ⟨"text/", [("cnpj", ["12345678000199"])], [], ""⟩

/-- The same with a well-formed `Content-Type` that is not a form. -/
def reqJSON : Request := ⟨"application/json", [("cnpj", ["12345678000199"])], [], ""⟩

/-- A request for the record of id `1`, with no header and no form. -/
def reqID1 : Request := ⟨"", [], [], "1"⟩

/-! ## The `_id` filter described by an id string -/

/-- The filter that an id string selects a record with: the decoded object id
when the string decodes as one, the string itself otherwise. -/
def idFilter (id : String) : BsonDoc :=
  match ObjectIDFromHex id with
  | some oid => [("_id", .objectID oid)]
  | none => [("_id", .string id)]

/-! ## The record described by a form -/

/-- The record that a form describes, field by field: each text field is the
trimmed form value, each integer field is the integer its trimmed value denotes
and 0 when it denotes none, and the id is empty. -/
def recordOfForm (form : Values) : Empresa where
  ID := ""
  CNPJ := TrimSpace (form.Get "cnpj")
  NomeFantasia := TrimSpace (form.Get "nome_fantasia")
  RazaoSocial := TrimSpace (form.Get "razao_social")
  Endereco := TrimSpace (form.Get "endereco")
  NumFuncionarios := (Atoi (TrimSpace (form.Get "num_funcionarios"))).getD 0
  NumMinPCD := (Atoi (TrimSpace (form.Get "num_min_pcd"))).getD 0

/-- The media types that `parseEmpresaFromRequest` takes to its form branch. -/
def acceptedMediaType (r : Request) : Prop :=
  ToLower (ParseMediaType r.contentType) = "application/x-www-form-urlencoded" ∨
  ToLower (ParseMediaType r.contentType) = "multipart/form-data" ∨
  ToLower (ParseMediaType r.contentType) = ""

instance (r : Request) : Decidable (acceptedMediaType r) := by
  unfold acceptedMediaType; infer_instance

/-! ## `cmd/wsserver`: the broadcast hub -/

/-- A message, `[]byte`. -/
abbrev Msg := List UInt8

/-- A `*client`, a pointer. -/
abbrev ClientRef := Nat

/-- The state of a `client` object: the messages waiting in the channel `out`,
whether `out` has been closed, and how many times `conn.Close()` has run. -/
structure Client where
  out : List Msg
  outClosed : Bool
  connCloses : Nat
deriving DecidableEq, Repr

/-- The capacity of `out`, from `make(chan []byte, 32)` in `wsHandler`. -/
def outCap : Nat := 32

/-- The client that `wsHandler` creates: an open, empty `out` and an open
connection. -/
def Client.fresh : Client := ⟨[], false, 0⟩

/-- The `hub`: the keys of the map `clients`, and the client objects the
pointers refer to. -/
structure Hub where
  clients : List ClientRef
  heap : ClientRef → Client

/-- What `hub.run` receives in one turn of its loop: a client from `h.add`, a
client from `h.remove`, or a message from `h.broadcast`. -/
inductive Event where
  | add (c : ClientRef)
  | remove (c : ClientRef)
  | broadcast (msg : Msg)
deriving DecidableEq, Repr

/-- `newHub`. -/
def newHub : Hub := ⟨[], fun _ => Client.fresh⟩

/-- The statement `select { case c.out <- msg: default: }` on one client: a send
on a closed channel panics (`none`); otherwise the message is buffered when the
channel has room and dropped when it has none. -/
def trySend (cl : Client) (msg : Msg) : Option Client :=
  if cl.outClosed then none
  else if cl.out.length < outCap then some { cl with out := cl.out ++ [msg] }
  else some cl

/-- The loop `for c := range h.clients` of the broadcast case, over the keys in
some order. -/
def broadcastTo (msg : Msg) : List ClientRef → (ClientRef → Client) → Option (ClientRef → Client)
  | [], heap => some heap
  | c :: cs, heap =>
    match trySend (heap c) msg with
    | none => none
    | some cl => broadcastTo msg cs (Function.update heap c cl)

/-- One turn of the loop of `hub.run`; `none` is a panic of the hub goroutine.
`close(c.out)` panics on a channel that is already closed. -/
def Hub.step (h : Hub) : Event → Option Hub
  | .add c =>
    some { h with clients := if c ∈ h.clients then h.clients else c :: h.clients }
  | .remove c =>
    if c ∈ h.clients then
      if (h.heap c).outClosed then none
      else
        some { clients := h.clients.erase c
               heap := Function.update h.heap c
                 { h.heap c with outClosed := true, connCloses := (h.heap c).connCloses + 1 } }
    else some h
  | .broadcast msg =>
    match broadcastTo msg h.clients h.heap with
    | none => none
    | some heap => some { h with heap := heap }

/-- What a registered client looks like in a running hub: the keys of the map
are distinct, and the `out` of every registered client is open (only the remove
case closes it, and it unregisters the client first). -/
def Hub.Inv (h : Hub) : Prop :=
  h.clients.Nodup ∧ ∀ c ∈ h.clients, (h.heap c).outClosed = false

instance (h : Hub) : Decidable h.Inv := by
  unfold Hub.Inv; infer_instance

/-- The hub together with the number of clients `wsHandler` has created so far;
client `n` is the one created next. -/
structure System where
  hub : Hub
  next : Nat

/-- What can happen to a running server: `wsHandler` creates a client and hands
it to `h.add`; a reader goroutine hands its client to `h.remove`; the consumer
hands a message to `h.broadcast`; a writer goroutine takes a message from its
client's `out`. -/
inductive System.Step : System → System → Prop where
  | connect (s : System) (h' : Hub) :
      s.hub.step (.add s.next) = some h' → System.Step s ⟨h', s.next + 1⟩
  | remove (s : System) (c : ClientRef) (h' : Hub) :
      s.hub.step (.remove c) = some h' → System.Step s ⟨h', s.next⟩
  | broadcast (s : System) (msg : Msg) (h' : Hub) :
      s.hub.step (.broadcast msg) = some h' → System.Step s ⟨h', s.next⟩
  | drain (s : System) (c : ClientRef) :
      System.Step s
        ⟨⟨s.hub.clients, Function.update s.hub.heap c
            { s.hub.heap c with out := (s.hub.heap c).out.tail }⟩, s.next⟩

/-- The states a server reaches from `newHub`. -/
inductive System.Reachable : System → Prop where
  | init : System.Reachable ⟨newHub, 0⟩
  | step {s t : System} : System.Reachable s → System.Step s t → System.Reachable t

/-- The invariant of a running server: the hub invariant, every registered
client has been created, and the clients not yet created are fresh. -/
def System.Inv (s : System) : Prop :=
  s.hub.Inv ∧ (∀ c ∈ s.hub.clients, c < s.next) ∧
    ∀ c, s.next ≤ c → s.hub.heap c = Client.fresh

/-- A hub with three registered clients, the second with a full buffer, and an
unregistered client 7. -/
def hubThree : Hub where
  clients := [0, 1, 2]
  heap := fun c => if c = 1 then ⟨List.replicate 32 [0], false, 0⟩ else Client.fresh

/-- A form whose `num_funcionarios` is a negative number. -/
def reqNegative : Request :=
  ⟨"application/x-www-form-urlencoded",
   [("cnpj", ["12345678000199"]), ("num_funcionarios", ["-5"]), ("num_min_pcd", ["3"])],
   [], "1"⟩

/-! ## The media type of a `Content-Type` header -/

/-- The text of a header before its first `;`, lower-cased and trimmed: what
`mime.ParseMediaType` checks and, when it accepts the header, returns as the
media type. -/
def baseMediaType (v : String) : List Char :=
  trimSpaceChars ((v.data.takeWhile (· ≠ ';')).map toLowerRune)

/-- Whether the parameters of a header repeat a name with different values, as
the parameter loop of `mime.ParseMediaType` finds. -/
def headerParamsDuplicate (v : String) : Bool :=
  paramsDuplicate (v.data.length + 1) (v.data.drop (v.data.takeWhile (· ≠ ';')).length) []

/-- Whether `mime.ParseMediaType` returns the media type of the header: the
text before the first `;` is a token or a token, a slash and a token, and no
parameter name comes twice with different values. -/
def wellFormedMediaType (v : String) : Bool :=
  checkMediaTypeDisposition (baseMediaType v) && !headerParamsDuplicate v

/-- The request of `TestCreateMultipart`: a multipart body with its boundary. -/
def reqMultipart : Request :=
  ⟨"multipart/form-data; boundary=7d1a2b3c", [],
   [("cnpj", ["12345678000199"]), ("nome_fantasia", ["Loja Y"])], ""⟩

/-- A request whose `Content-Type` repeats a parameter with two values. -/
def reqDuplicateParam : Request :=
  ⟨"application/json; a=1; a=2", [("cnpj", ["12345678000199"])], [], ""⟩

/-- A collection that holds one record, under the object id
`507f1f77bcf86cd799439011`, and answers every other filter with a miss. -/
def oidCol : Collection where
  InsertOne := fun _ => .ok .other
  FindOne := fun f =>
    if f = [("_id", .objectID [80, 127, 31, 119, 188, 248, 108, 215, 153, 67, 144, 17])] then
      .ok ⟨"507f1f77bcf86cd799439011", "12345678000199", "Loja X", "", "", 0, 0⟩
    else .error ErrNoDocuments
  UpdateOne := fun _ _ => none
  DeleteOne := fun f =>
    if f = [("_id", .objectID [80, 127, 31, 119, 188, 248, 108, 215, 153, 67, 144, 17])] then
      .ok 1
    else .ok 0

/-! ## Lemmas on the library functions -/

theorem dropWhile_isSpace_eq_nil {l : List Char} (h : ∀ c ∈ l, isSpace c = true) :
    l.dropWhile isSpace = [] := by
  induction l with
  | nil => rfl
  | cons a t ih =>
    have ha : isSpace a = true := h a (List.mem_cons_self a t)
    simp only [List.dropWhile_cons, ha, if_true]
    exact ih (fun c hc => h c (List.mem_cons_of_mem a hc))

theorem trimSpaceChars_eq_nil {l : List Char} (h : ∀ c ∈ l, isSpace c = true) :
    trimSpaceChars l = [] := by
  simp [trimSpaceChars, dropWhile_isSpace_eq_nil h]

theorem dropWhile_isSpace_mem {l : List Char} {c : Char}
    (h : c ∈ l.dropWhile isSpace) : c ∈ l :=
  (List.dropWhile_sublist isSpace).subset h

theorem trimSpaceChars_mem {l : List Char} {c : Char} (h : c ∈ trimSpaceChars l) : c ∈ l := by
  unfold trimSpaceChars at h
  rw [List.mem_reverse] at h
  have h1 := dropWhile_isSpace_mem h
  rw [List.mem_reverse] at h1
  exact dropWhile_isSpace_mem h1

/-- A list that is empty or starts with a non-space is left alone by the left trim. -/
theorem dropWhile_isSpace_head {l : List Char}
    (h : ∀ a t, l = a :: t → isSpace a = false) : l.dropWhile isSpace = l := by
  cases l with
  | nil => rfl
  | cons a t => simp [List.dropWhile_cons, h a t rfl]

theorem dropWhile_isSpace_head_not_space (l : List Char) :
    ∀ a t, l.dropWhile isSpace = a :: t → isSpace a = false := by
  induction l with
  | nil => intro a t h; simp at h
  | cons b u ih =>
    intro a t h
    by_cases hb : isSpace b = true
    · simp only [List.dropWhile_cons, hb, if_true] at h
      exact ih a t h
    · simp only [List.dropWhile_cons, hb] at h
      simp only [Bool.false_eq_true, if_false, List.cons.injEq] at h
      rw [← h.1]; simpa using hb

theorem dropWhile_isSpace_idem (l : List Char) :
    (l.dropWhile isSpace).dropWhile isSpace = l.dropWhile isSpace :=
  dropWhile_isSpace_head (dropWhile_isSpace_head_not_space l)

theorem trimSpaceChars_head_not_space (l : List Char) :
    ∀ a t, trimSpaceChars l = a :: t → isSpace a = false := by
  intro a t h
  have hpre : trimSpaceChars l <+: l.dropWhile isSpace := by
    have := List.rdropWhile_prefix isSpace (l.dropWhile isSpace)
    simpa [trimSpaceChars, List.rdropWhile] using this
  rw [h] at hpre
  obtain ⟨u, hu⟩ := hpre
  exact dropWhile_isSpace_head_not_space l a (t ++ u) (by simpa using hu.symm)

theorem trimSpaceChars_idem (l : List Char) :
    trimSpaceChars (trimSpaceChars l) = trimSpaceChars l := by
  have h1 : (trimSpaceChars l).dropWhile isSpace = trimSpaceChars l :=
    dropWhile_isSpace_head (trimSpaceChars_head_not_space l)
  have h2 : trimSpaceChars (trimSpaceChars l) =
      (((trimSpaceChars l).dropWhile isSpace).reverse.dropWhile isSpace).reverse := rfl
  rw [h2, h1]
  unfold trimSpaceChars
  rw [List.reverse_reverse, dropWhile_isSpace_idem]

theorem TrimSpace_idem (s : String) : TrimSpace (TrimSpace s) = TrimSpace s := by
  simp [TrimSpace, trimSpaceChars_idem]

theorem TrimSpace_eq_empty {s : String} (h : ∀ c ∈ s.data, isSpace c = true) :
    TrimSpace s = "" := by
  simp [TrimSpace, trimSpaceChars_eq_nil h]

theorem Atoi_empty : Atoi "" = none := rfl

/-! ## Lemmas on request decoding -/

theorem parseEmpresaFromRequest_accepted {r : Request} (h : acceptedMediaType r) :
    parseEmpresaFromRequest r = (recordOfForm r.Form, none) := by
  unfold acceptedMediaType at h
  unfold parseEmpresaFromRequest recordOfForm
  dsimp only
  rw [if_pos h]
  generalize TrimSpace (r.Form.Get "num_funcionarios") = v1
  generalize TrimSpace (r.Form.Get "num_min_pcd") = v2
  by_cases h1 : v1 = ""
  · subst h1
    by_cases h2 : v2 = ""
    · subst h2; rfl
    · rw [if_pos h2]
      cases h4 : Atoi v2 <;> rfl
  · rw [if_pos h1]
    by_cases h2 : v2 = ""
    · subst h2
      cases h3 : Atoi v1 <;> rfl
    · rw [if_pos h2]
      cases h3 : Atoi v1 <;> cases h4 : Atoi v2 <;> rfl

theorem parseEmpresaFromRequest_rejected {r : Request} (h : ¬ acceptedMediaType r) :
    parseEmpresaFromRequest r = (Empresa.zero, some ErrNotSupported) := by
  unfold acceptedMediaType at h
  unfold parseEmpresaFromRequest
  dsimp only
  rw [if_neg h]

theorem parseEmpresaFromRequest_ok_iff (r : Request) :
    (parseEmpresaFromRequest r).2 = none ↔ acceptedMediaType r := by
  by_cases h : acceptedMediaType r
  · simp [parseEmpresaFromRequest_accepted h, h]
  · simp [parseEmpresaFromRequest_rejected h, h]

theorem ValidateCNPJ_trimmed (s : String) :
    ValidateCNPJ (TrimSpace s) =
      if TrimSpace s = "" then some (errorsNew "cnpj obrigatório") else none := by
  simp [ValidateCNPJ, TrimSpace_idem]

/-! ## The claims on create, update, get and delete -/

/-- C1: a create or update request with a supported body whose `cnpj` form value
is absent, empty or made of white space only is answered 400 with the error
"cnpj obrigatório", and the handler calls neither the store nor the publisher
(its trace of calls is empty). -/
theorem blank_cnpj_rejected (s : Server) (r : Request)
    (hsup : (parseEmpresaFromRequest r).2 = none)
    (hblank : ∀ c ∈ (r.Form.Get "cnpj").data, isSpace c = true) :
    s.create r = (writeError 400 "cnpj obrigatório", []) ∧
    s.update r = (writeError 400 "cnpj obrigatório", []) := by
  have hacc := (parseEmpresaFromRequest_ok_iff r).1 hsup
  have hp := parseEmpresaFromRequest_accepted hacc
  have hv : ValidateCNPJ (recordOfForm r.Form).CNPJ = some (errorsNew "cnpj obrigatório") := by
    show ValidateCNPJ (TrimSpace (r.Form.Get "cnpj")) = _
    rw [ValidateCNPJ_trimmed, if_pos (TrimSpace_eq_empty hblank)]
  constructor
  · unfold Server.create
    rw [hp]
    dsimp only
    rw [hv]
    rfl
  · unfold Server.update
    rw [hp]
    dsimp only
    rw [hv]
    rfl

theorem blank_cnpj_rejected_witness :
    (parseEmpresaFromRequest reqNoCNPJ).2 = none ∧
    (∀ c ∈ (reqNoCNPJ.Form.Get "cnpj").data, isSpace c = true) ∧
    Server.create ⟨fakeRepo, some nopPub⟩ reqNoCNPJ = (writeError 400 "cnpj obrigatório", []) ∧
    Server.update ⟨fakeRepo, some nopPub⟩ reqNoCNPJ = (writeError 400 "cnpj obrigatório", []) :=
  ⟨by decide, by decide,
    blank_cnpj_rejected ⟨fakeRepo, some nopPub⟩ reqNoCNPJ (by decide) (by decide)⟩

theorem ValidateCNPJ_of_trimmed_ne {v : String} (h : TrimSpace v ≠ "") :
    ValidateCNPJ (TrimSpace v) = none := by
  rw [ValidateCNPJ_trimmed, if_neg h]

/-- C2: for a create request with a supported form body whose trimmed `cnpj` is
not empty, when the store's `Create` returns `id` and no error, the response is
201 with body `{"id": id}` whatever the publisher is (nil, succeeding or
failing); the store is called once with the decoded record, and a publisher that
is present is asked to publish exactly one message, "Cadastro de EMPRESA "
followed by the trimmed `nome_fantasia`. -/
theorem create_success (repo : EmpresaStore) (r : Request) (id : String)
    (hsup : (parseEmpresaFromRequest r).2 = none)
    (hcnpj : TrimSpace (r.Form.Get "cnpj") ≠ "")
    (hstore : repo.Create (parseEmpresaFromRequest r).1 = (id, none)) :
    (∀ pub : Option Publisher,
      (Server.create ⟨repo, pub⟩ r).1 = writeJSON 201 (.object [("id", id)])) ∧
    (Server.create ⟨repo, none⟩ r).2 = [.repoCreate (parseEmpresaFromRequest r).1] ∧
    (∀ p : Publisher,
      (Server.create ⟨repo, some p⟩ r).2 =
        [.repoCreate (parseEmpresaFromRequest r).1,
         .publish ("Cadastro de EMPRESA " ++ TrimSpace (r.Form.Get "nome_fantasia"))]) := by
  have hacc := (parseEmpresaFromRequest_ok_iff r).1 hsup
  have hp := parseEmpresaFromRequest_accepted hacc
  rw [hp] at hstore
  have hv : ValidateCNPJ (recordOfForm r.Form).CNPJ = none :=
    ValidateCNPJ_of_trimmed_ne hcnpj
  have hcreate : ∀ pub : Option Publisher, Server.create ⟨repo, pub⟩ r =
      (writeJSON 201 (.object [("id", id)]),
        .repoCreate (recordOfForm r.Form) ::
          Server.publish ⟨repo, pub⟩ ("Cadastro de EMPRESA " ++ (recordOfForm r.Form).NomeFantasia)) := by
    intro pub
    unfold Server.create
    rw [hp]
    dsimp only
    rw [hv]
    dsimp only
    rw [hstore]
  refine ⟨fun pub => by rw [hcreate pub], ?_, fun p => ?_⟩
  · rw [hcreate none, hp]; rfl
  · rw [hcreate (some p), hp]; rfl

theorem create_success_witness :
    (parseEmpresaFromRequest reqLojaX).2 = none ∧
    TrimSpace (reqLojaX.Form.Get "cnpj") ≠ "" ∧
    fakeRepo.Create (parseEmpresaFromRequest reqLojaX).1 = ("1", none) ∧
    (Server.create ⟨fakeRepo, some failingPub⟩ reqLojaX).1 =
      writeJSON 201 (.object [("id", "1")]) ∧
    (Server.create ⟨fakeRepo, some failingPub⟩ reqLojaX).2 =
      [.repoCreate (parseEmpresaFromRequest reqLojaX).1,
       .publish ("Cadastro de EMPRESA " ++ TrimSpace (reqLojaX.Form.Get "nome_fantasia"))] :=
  ⟨by decide, by decide, by decide,
    (create_success fakeRepo reqLojaX "1" (by decide) (by decide) (by decide)).1 (some failingPub),
    (create_success fakeRepo reqLojaX "1" (by decide) (by decide) (by decide)).2.2 failingPub⟩

theorem create_after_validation (s : Server) (r : Request)
    (hsup : (parseEmpresaFromRequest r).2 = none)
    (hcnpj : TrimSpace (r.Form.Get "cnpj") ≠ "") :
    s.create r =
      match s.repo.Create (recordOfForm r.Form) with
      | (_, some err) => (writeError 400 err.msg, [.repoCreate (recordOfForm r.Form)])
      | (id, none) =>
        (writeJSON 201 (.object [("id", id)]),
          .repoCreate (recordOfForm r.Form) ::
            s.publish ("Cadastro de EMPRESA " ++ (recordOfForm r.Form).NomeFantasia)) := by
  have hp := parseEmpresaFromRequest_accepted ((parseEmpresaFromRequest_ok_iff r).1 hsup)
  have hv : ValidateCNPJ (recordOfForm r.Form).CNPJ = none :=
    ValidateCNPJ_of_trimmed_ne hcnpj
  unfold Server.create
  rw [hp]
  dsimp only
  rw [hv]

theorem update_after_validation (s : Server) (r : Request)
    (hsup : (parseEmpresaFromRequest r).2 = none)
    (hcnpj : TrimSpace (r.Form.Get "cnpj") ≠ "") :
    s.update r =
      match s.repo.Update r.urlParamID (recordOfForm r.Form) with
      | some err => (writeError 400 err.msg, [.repoUpdate r.urlParamID (recordOfForm r.Form)])
      | none =>
        (writeJSON 200 (.object [("status", "ok")]),
          .repoUpdate r.urlParamID (recordOfForm r.Form) ::
            s.publish ("Edição da EMPRESA " ++ (recordOfForm r.Form).NomeFantasia)) := by
  have hp := parseEmpresaFromRequest_accepted ((parseEmpresaFromRequest_ok_iff r).1 hsup)
  have hv : ValidateCNPJ (recordOfForm r.Form).CNPJ = none :=
    ValidateCNPJ_of_trimmed_ne hcnpj
  unfold Server.update
  rw [hp]
  dsimp only
  rw [hv]

theorem EmpresaRepo_Update_eq (col : Collection) (id : String) (e : Empresa) :
    EmpresaRepo.Update col id e =
      match col.UpdateOne (idFilter id) e.toBson with
      | some err =>
        if err.isDuplicateKey then
          (some (errorsNew "cnpj já cadastrado"), [.updateOne (idFilter id) e.toBson])
        else (some err, [.updateOne (idFilter id) e.toBson])
      | none => (none, [.updateOne (idFilter id) e.toBson]) := rfl

/-- C3: for create and for update on the Mongo repository, when the driver's
insert or update fails with a duplicate-key error the repository returns an
error whose message is exactly "cnpj já cadastrado", the handler answers 400
with that message and publishes nothing; when the driver fails with any other
error the 400 response carries that error's own message. -/
theorem duplicate_key_reported (col : Collection) (pub : Option Publisher) (r : Request)
    (hsup : (parseEmpresaFromRequest r).2 = none)
    (hcnpj : TrimSpace (r.Form.Get "cnpj") ≠ "") :
    (∀ err, col.InsertOne (parseEmpresaFromRequest r).1 = .error err →
      (err.isDuplicateKey = true →
        ((EmpresaRepo.Create col (parseEmpresaFromRequest r).1).1.2).map GoError.msg
          = some "cnpj já cadastrado" ∧
        (Server.create ⟨EmpresaRepo.store col, pub⟩ r).1
          = writeError 400 "cnpj já cadastrado" ∧
        (Server.create ⟨EmpresaRepo.store col, pub⟩ r).2.filter Call.isPublish = []) ∧
      (err.isDuplicateKey = false →
        (Server.create ⟨EmpresaRepo.store col, pub⟩ r).1 = writeError 400 err.msg)) ∧
    (∀ err, col.UpdateOne (idFilter r.urlParamID) (parseEmpresaFromRequest r).1.toBson
        = some err →
      (err.isDuplicateKey = true →
        ((EmpresaRepo.Update col r.urlParamID (parseEmpresaFromRequest r).1).1).map GoError.msg
          = some "cnpj já cadastrado" ∧
        (Server.update ⟨EmpresaRepo.store col, pub⟩ r).1
          = writeError 400 "cnpj já cadastrado" ∧
        (Server.update ⟨EmpresaRepo.store col, pub⟩ r).2.filter Call.isPublish = []) ∧
      (err.isDuplicateKey = false →
        (Server.update ⟨EmpresaRepo.store col, pub⟩ r).1 = writeError 400 err.msg)) := by
  have hp := parseEmpresaFromRequest_accepted ((parseEmpresaFromRequest_ok_iff r).1 hsup)
  rw [hp]
  dsimp only
  constructor
  · intro err hins
    have hc : ∀ b, err.isDuplicateKey = b →
        EmpresaRepo.Create col (recordOfForm r.Form) =
          (("", some (if b then errorsNew "cnpj já cadastrado" else err)),
            [.insertOne (recordOfForm r.Form)]) := by
      intro b hb
      unfold EmpresaRepo.Create
      rw [hins]
      dsimp only
      cases b <;> simp [hb]
    constructor
    · intro hd
      have h1 := hc true hd
      have h2 : (EmpresaRepo.store col).Create (recordOfForm r.Form) =
          ("", some (errorsNew "cnpj já cadastrado")) := by
        show (EmpresaRepo.Create col (recordOfForm r.Form)).1 = _
        rw [h1]; rfl
      rw [create_after_validation _ r hsup hcnpj]
      dsimp only
      rw [h1, h2]
      exact ⟨rfl, rfl, rfl⟩
    · intro hd
      have h1 := hc false hd
      have h2 : (EmpresaRepo.store col).Create (recordOfForm r.Form) = ("", some err) := by
        show (EmpresaRepo.Create col (recordOfForm r.Form)).1 = _
        rw [h1]; rfl
      rw [create_after_validation _ r hsup hcnpj]
      dsimp only
      rw [h2]
  · intro err hupd
    have hc : ∀ b, err.isDuplicateKey = b →
        EmpresaRepo.Update col r.urlParamID (recordOfForm r.Form) =
          (some (if b then errorsNew "cnpj já cadastrado" else err),
            [.updateOne (idFilter r.urlParamID) (recordOfForm r.Form).toBson]) := by
      intro b hb
      rw [EmpresaRepo_Update_eq, hupd]
      dsimp only
      cases b <;> simp [hb]
    constructor
    · intro hd
      have h1 := hc true hd
      have h2 : (EmpresaRepo.store col).Update r.urlParamID (recordOfForm r.Form) =
          some (errorsNew "cnpj já cadastrado") := by
        show (EmpresaRepo.Update col r.urlParamID (recordOfForm r.Form)).1 = _
        rw [h1]; rfl
      rw [update_after_validation _ r hsup hcnpj]
      dsimp only
      rw [h1, h2]
      exact ⟨rfl, rfl, rfl⟩
    · intro hd
      have h1 := hc false hd
      have h2 : (EmpresaRepo.store col).Update r.urlParamID (recordOfForm r.Form) = some err := by
        show (EmpresaRepo.Update col r.urlParamID (recordOfForm r.Form)).1 = _
        rw [h1]; rfl
      rw [update_after_validation _ r hsup hcnpj]
      dsimp only
      rw [h2]

theorem duplicate_key_reported_witness :
    (parseEmpresaFromRequest reqLojaX).2 = none ∧
    TrimSpace (reqLojaX.Form.Get "cnpj") ≠ "" ∧
    (Server.create ⟨EmpresaRepo.store dupCol, some nopPub⟩ reqLojaX).1
      = writeError 400 "cnpj já cadastrado" ∧
    (Server.update ⟨EmpresaRepo.store dupCol, some nopPub⟩ reqLojaX).1
      = writeError 400 "cnpj já cadastrado" ∧
    (Server.create ⟨EmpresaRepo.store timeoutCol, some nopPub⟩ reqLojaX).1
      = writeError 400 "context deadline exceeded" :=
  ⟨by decide, by decide,
    (((duplicate_key_reported dupCol (some nopPub) reqLojaX (by decide) (by decide)).1
      _ rfl).1 rfl).2.1,
    (((duplicate_key_reported dupCol (some nopPub) reqLojaX (by decide) (by decide)).2
      _ rfl).1 rfl).2.1,
    ((duplicate_key_reported timeoutCol (some nopPub) reqLojaX (by decide) (by decide)).1
      _ rfl).2 rfl⟩

/-- Whatever error the store's `Get` returns, `Server.get` answers 404
"não encontrado". -/
theorem get_any_error (s : Server) (r : Request) (item : Option Empresa) (err : GoError)
    (h : s.repo.Get r.urlParamID = (item, some err)) :
    s.get r = (writeError 404 "não encontrado", [.repoGet r.urlParamID]) := by
  unfold Server.get
  dsimp only
  rw [h]

/-- C4, the code at a store failure that is not a miss: when the lookup runs
into the deadline of its context (the record may well exist) `Server.get`
answers 404 "não encontrado", the very response it gives when the driver reports
`ErrNoDocuments`, although the repository hands it two different errors. -/
theorem get_timeout_answered_as_not_found :
    (EmpresaRepo.Get timeoutCol "1").1.2 = some ⟨"context deadline exceeded", false⟩ ∧
    (EmpresaRepo.Get dupCol "1").1.2 = some ErrNoDocuments ∧
    (Server.get ⟨EmpresaRepo.store timeoutCol, none⟩ reqID1).1
      = writeError 404 "não encontrado" ∧
    (Server.get ⟨EmpresaRepo.store timeoutCol, none⟩ reqID1).1
      = (Server.get ⟨EmpresaRepo.store dupCol, none⟩ reqID1).1 := by
  decide

/-- C5: the delete handler calls the store's `Get` and then its `Delete` for
every id, whatever `Get` returned; the response is 200 `{"status": "ok"}`
exactly when `Delete` returns no error and 500 with the error's message
otherwise; after a successful `Delete` a publisher that is present is asked to
publish "Exclusão da EMPRESA " followed by the `nome_fantasia` of the record
that `Get` returned, or by the empty string when `Get` returned no record; after
a failed `Delete` nothing is published.  On the Mongo repository `Delete`
returns no error whenever the driver's `DeleteOne` does, a count of 0 deleted
documents included, and `Get` returns no record exactly when it returns an
error. -/
theorem delete_contract (s : Server) (r : Request) :
    (s.delete r).2.filter Call.isStore
      = [.repoGet r.urlParamID, .repoDelete r.urlParamID] ∧
    ((s.delete r).1 = writeJSON 200 (.object [("status", "ok")])
      ↔ s.repo.Delete r.urlParamID = none) ∧
    (∀ err, s.repo.Delete r.urlParamID = some err →
      (s.delete r).1 = writeError 500 err.msg ∧
      (s.delete r).2.filter Call.isPublish = []) ∧
    (s.repo.Delete r.urlParamID = none →
      (s.delete r).2.filter Call.isPublish =
        match s.pub with
        | none => []
        | some _ =>
          [.publish ("Exclusão da EMPRESA " ++
            match (s.repo.Get r.urlParamID).1 with
            | some item => item.NomeFantasia
            | none => "")]) ∧
    (∀ (col : Collection) (id : String),
      (∀ n, col.DeleteOne (idFilter id) = .ok n → (EmpresaRepo.store col).Delete id = none) ∧
      (((EmpresaRepo.store col).Get id).1 = none ↔
        ((EmpresaRepo.store col).Get id).2 ≠ none)) := by
  refine ⟨?_, ?_, ?_, ?_, ?_⟩
  · unfold Server.delete
    cases hd : s.repo.Delete r.urlParamID <;> cases hpub : s.pub <;>
      simp [hd, Server.publish, hpub, Call.isStore]
  · unfold Server.delete
    cases hd : s.repo.Delete r.urlParamID <;>
      simp [hd, writeError, writeJSON]
  · intro err hd
    unfold Server.delete
    simp [hd, Call.isPublish]
  · intro hd
    unfold Server.delete
    cases hpub : s.pub <;> simp [hd, Server.publish, hpub, Call.isPublish]
  · intro col id
    constructor
    · intro n hn
      show (EmpresaRepo.Delete col id).1 = none
      have : EmpresaRepo.Delete col id =
          match col.DeleteOne (idFilter id) with
          | .error err => (some err, [.deleteOne (idFilter id)])
          | .ok _ => (none, [.deleteOne (idFilter id)]) := rfl
      rw [this, hn]
    · show ((EmpresaRepo.Get col id).1.1 = none ↔ (EmpresaRepo.Get col id).1.2 ≠ none)
      unfold EmpresaRepo.Get
      cases ObjectIDFromHex id with
      | none => dsimp only; cases col.FindOne [("_id", .string id)] <;> simp
      | some o => dsimp only; cases col.FindOne [("_id", .objectID o)] <;> simp

theorem Values_Get_of_lookup_none {form : Values} {key : String}
    (h : form.lookup key = none) : form.Get key = "" := by
  unfold Values.Get
  rw [h]

theorem TrimSpace_empty : TrimSpace "" = "" := rfl

/-- C6: update is a full replace.  For an update request with a supported body
and a non-empty trimmed `cnpj`, whatever the server, the one store call is
`Update` with the URL id and a record read from the request form alone: each
text field is the trimmed form value (the empty string when the key is absent
from the form), each integer field is the integer its trimmed form value denotes
and 0 when it denotes none (key absent, blank, or not an integer; the request is
not rejected), and the id is empty, so that the `$set` document carries no
`_id`; when the store's `Update` returns no error the response is 200
`{"status": "ok"}`. -/
theorem update_full_replace (s : Server) (r : Request)
    (hsup : (parseEmpresaFromRequest r).2 = none)
    (hcnpj : TrimSpace (r.Form.Get "cnpj") ≠ "") :
    (s.update r).2.filter Call.isStore
      = [.repoUpdate r.urlParamID (parseEmpresaFromRequest r).1] ∧
    (parseEmpresaFromRequest r).1 =
      { ID := ""
        CNPJ := TrimSpace (r.Form.Get "cnpj")
        NomeFantasia := TrimSpace (r.Form.Get "nome_fantasia")
        RazaoSocial := TrimSpace (r.Form.Get "razao_social")
        Endereco := TrimSpace (r.Form.Get "endereco")
        NumFuncionarios := (Atoi (TrimSpace (r.Form.Get "num_funcionarios"))).getD 0
        NumMinPCD := (Atoi (TrimSpace (r.Form.Get "num_min_pcd"))).getD 0 } ∧
    (∀ key, r.Form.lookup key = none →
      TrimSpace (r.Form.Get key) = "" ∧ (Atoi (TrimSpace (r.Form.Get key))).getD 0 = 0) ∧
    (∀ key, TrimSpace (r.Form.Get key) = "" →
      (Atoi (TrimSpace (r.Form.Get key))).getD 0 = 0) ∧
    (parseEmpresaFromRequest r).1.toBson.lookup "_id" = none ∧
    (s.repo.Update r.urlParamID (parseEmpresaFromRequest r).1 = none →
      (s.update r).1 = writeJSON 200 (.object [("status", "ok")])) := by
  have hp := parseEmpresaFromRequest_accepted ((parseEmpresaFromRequest_ok_iff r).1 hsup)
  have hu := update_after_validation s r hsup hcnpj
  rw [hp]
  dsimp only
  refine ⟨?_, rfl, ?_, ?_, rfl, ?_⟩
  · rw [hu]
    cases hd : s.repo.Update r.urlParamID (recordOfForm r.Form) <;> cases hpub : s.pub <;>
      simp [Server.publish, hpub, Call.isStore]
  · intro key hk
    rw [Values_Get_of_lookup_none hk, TrimSpace_empty]
    exact ⟨rfl, rfl⟩
  · intro key hk
    rw [hk]
    rfl
  · intro hd
    rw [hu, hd]

theorem update_full_replace_witness :
    (parseEmpresaFromRequest reqLojaX).2 = none ∧
    TrimSpace (reqLojaX.Form.Get "cnpj") ≠ "" ∧
    (Server.update ⟨fakeRepo, none⟩ reqLojaX).2.filter Call.isStore
      = [.repoUpdate "1" ⟨"", "12345678000199", "Loja X", "", "", 0, 0⟩] ∧
    (Server.update ⟨fakeRepo, none⟩ reqBadInt).2.filter Call.isStore
      = [.repoUpdate "1" ⟨"", "12345678000199", "", "", "", 0, 7⟩] :=
  ⟨by decide, by decide,
    (update_full_replace ⟨fakeRepo, none⟩ reqLojaX (by decide) (by decide)).1.trans
      (by decide),
    (update_full_replace ⟨fakeRepo, none⟩ reqBadInt (by decide) (by decide)).1.trans
      (by decide)⟩

/-! ## The id filter of the repository -/

theorem fromHexChar_utf8Size {c : Char} (h : isHexDigit c = true) : c.utf8Size = 1 := by
  have hle : c.val ≤ 0x7f := by
    unfold isHexDigit fromHexChar at h
    have h9 : ('9' : Char).val = 57 := rfl
    have hf : ('f' : Char).val = 102 := rfl
    have hF : ('F' : Char).val = 70 := rfl
    split at h
    · rename_i h1
      have := h1.2
      rw [Char.le_def, h9] at this
      exact Nat.le_trans this (by decide)
    · split at h
      · rename_i h1
        have := h1.2
        rw [Char.le_def, hf] at this
        exact Nat.le_trans this (by decide)
      · split at h
        · rename_i h1
          have := h1.2
          rw [Char.le_def, hF] at this
          exact Nat.le_trans this (by decide)
        · simp at h
  unfold Char.utf8Size
  simp [hle]

theorem utf8ByteSize_go_eq_length {l : List Char} (h : ∀ c ∈ l, isHexDigit c = true) :
    String.utf8ByteSize.go l = l.length := by
  induction l with
  | nil => rfl
  | cons a t ih =>
    rw [String.utf8ByteSize.go, ih (fun c hc => h c (List.mem_cons_of_mem a hc)),
      fromHexChar_utf8Size (h a (List.mem_cons_self a t)), List.length_cons]

theorem utf8ByteSize_eq_length {s : String} (h : ∀ c ∈ s.data, isHexDigit c = true) :
    s.utf8ByteSize = s.length := by
  cases s with
  | mk l => exact utf8ByteSize_go_eq_length h

theorem hexDecode_isSome_iff (l : List Char) :
    (hexDecode l).isSome = true ↔ l.length % 2 = 0 ∧ ∀ c ∈ l, isHexDigit c = true := by
  induction l using hexDecode.induct with
  | case1 => simp [hexDecode]
  | case2 c => simp [hexDecode]
  | case3 p q rest a b hq hp bytes hrest ih =>
    have hpd : isHexDigit p = true := by simp [isHexDigit, hp]
    have hqd : isHexDigit q = true := by simp [isHexDigit, hq]
    rw [hrest] at ih
    simp only [hexDecode, hp, hq, hrest, Option.isSome_some, true_iff]
    simp only [Option.isSome_some, true_iff] at ih
    refine ⟨by have h1 := ih.1; rw [List.length_cons, List.length_cons]; omega, ?_⟩
    intro c hc
    rcases List.mem_cons.1 hc with rfl | hc
    · exact hpd
    · rcases List.mem_cons.1 hc with rfl | hc
      · exact hqd
      · exact ih.2 c hc
  | case4 p q rest a b hq hp hrest ih =>
    rw [hrest] at ih
    simp only [hexDecode, hp, hq, hrest, Option.isSome_none, Bool.false_eq_true, false_iff]
    simp only [Option.isSome_none, Bool.false_eq_true, false_iff] at ih
    intro hcon
    apply ih
    refine ⟨by have h1 := hcon.1; rw [List.length_cons, List.length_cons] at h1; omega, ?_⟩
    intro c hc
    exact hcon.2 c (List.mem_cons_of_mem _ (List.mem_cons_of_mem _ hc))
  | case5 p q rest hne =>
    have hnone : hexDecode (p :: q :: rest) = none := by
      unfold hexDecode
      split
      · rename_i a b hp hq
        exact absurd hq (hne a b hp)
      · rfl
    rw [hnone]
    simp only [Option.isSome_none, Bool.false_eq_true, false_iff]
    intro hcon
    have h1 := hcon.2 p (List.mem_cons_self _ _)
    have h2 := hcon.2 q (List.mem_cons_of_mem _ (List.mem_cons_self _ _))
    unfold isHexDigit at h1 h2
    obtain ⟨a, ha⟩ := Option.isSome_iff_exists.1 h1
    obtain ⟨b, hb⟩ := Option.isSome_iff_exists.1 h2
    exact hne a b ha hb

theorem ObjectIDFromHex_isSome_iff (id : String) :
    (ObjectIDFromHex id).isSome = true ↔
      id.length = 24 ∧ ∀ c ∈ id.data, isHexDigit c = true := by
  unfold ObjectIDFromHex
  constructor
  · intro h
    by_cases hlen : id.utf8ByteSize ≠ 24
    · rw [if_pos hlen] at h
      simp at h
    · rw [if_neg hlen] at h
      have hhex := ((hexDecode_isSome_iff id.data).1 h).2
      have := utf8ByteSize_eq_length hhex
      exact ⟨by omega, hhex⟩
  · intro ⟨hlen, hhex⟩
    have hsz := utf8ByteSize_eq_length hhex
    have hlen2 : ¬ id.utf8ByteSize ≠ 24 := by omega
    rw [if_neg hlen2]
    apply (hexDecode_isSome_iff id.data).2
    refine ⟨?_, hhex⟩
    have : id.data.length = 24 := hlen
    omega

theorem EmpresaRepo_Get_calls (col : Collection) (id : String) :
    (EmpresaRepo.Get col id).2 = [.findOne (idFilter id)] := by
  unfold EmpresaRepo.Get idFilter
  cases ObjectIDFromHex id with
  | none => dsimp only; cases col.FindOne [("_id", .string id)] <;> rfl
  | some o => dsimp only; cases col.FindOne [("_id", .objectID o)] <;> rfl

theorem EmpresaRepo_Update_calls (col : Collection) (id : String) (e : Empresa) :
    (EmpresaRepo.Update col id e).2 = [.updateOne (idFilter id) e.toBson] := by
  rw [EmpresaRepo_Update_eq]
  cases h : col.UpdateOne (idFilter id) e.toBson with
  | none => rfl
  | some err => dsimp only; cases hb : err.isDuplicateKey <;> simp

theorem EmpresaRepo_Delete_calls (col : Collection) (id : String) :
    (EmpresaRepo.Delete col id).2 = [.deleteOne (idFilter id)] := by
  have : EmpresaRepo.Delete col id =
      match col.DeleteOne (idFilter id) with
      | .error err => (some err, [.deleteOne (idFilter id)])
      | .ok _ => (none, [.deleteOne (idFilter id)]) := rfl
  rw [this]
  cases col.DeleteOne (idFilter id) <;> rfl

theorem EmpresaRepo_Get_result (col : Collection) (id : String) :
    (EmpresaRepo.Get col id).1 =
      match col.FindOne (idFilter id) with
      | .error err => (none, some err)
      | .ok found => (some found, none) := by
  unfold EmpresaRepo.Get idFilter
  cases ObjectIDFromHex id with
  | none => dsimp only; cases col.FindOne [("_id", .string id)] <;> rfl
  | some o => dsimp only; cases col.FindOne [("_id", .objectID o)] <;> rfl

theorem EmpresaRepo_Update_result (col : Collection) (id : String) (e : Empresa) :
    (EmpresaRepo.Update col id e).1 =
      match col.UpdateOne (idFilter id) e.toBson with
      | some err => if err.isDuplicateKey then some (errorsNew "cnpj já cadastrado") else some err
      | none => none := by
  rw [EmpresaRepo_Update_eq]
  cases h : col.UpdateOne (idFilter id) e.toBson with
  | none => rfl
  | some err => dsimp only; cases hb : err.isDuplicateKey <;> simp

theorem EmpresaRepo_Delete_result (col : Collection) (id : String) :
    (EmpresaRepo.Delete col id).1 =
      match col.DeleteOne (idFilter id) with
      | .error err => some err
      | .ok _ => none := by
  have : EmpresaRepo.Delete col id =
      match col.DeleteOne (idFilter id) with
      | .error err => (some err, [.deleteOne (idFilter id)])
      | .ok _ => (none, [.deleteOne (idFilter id)]) := rfl
  rw [this]
  cases col.DeleteOne (idFilter id) <;> rfl

/-- C9: for every id string and every collection, the repository's `Get`,
`Update` and `Delete` select the record with the same `_id` filter: what each
returns is what the driver's `FindOne`, `UpdateOne`, `DeleteOne` answers at
that one filter, and that is the one driver call each makes.  The filter is the
decoded object id when `ObjectIDFromHex` decodes the string, which it does
exactly for a string of 24 hexadecimal digits, and the raw id string only when
the decode fails. -/
theorem repository_id_filter (col : Collection) (id : String) (e : Empresa) :
    (EmpresaRepo.Get col id).2 = [.findOne (idFilter id)] ∧
    (EmpresaRepo.Update col id e).2 = [.updateOne (idFilter id) e.toBson] ∧
    (EmpresaRepo.Delete col id).2 = [.deleteOne (idFilter id)] ∧
    (∀ oid, ObjectIDFromHex id = some oid →
      (EmpresaRepo.Get col id).2 = [.findOne [("_id", .objectID oid)]] ∧
      (EmpresaRepo.Update col id e).2 = [.updateOne [("_id", .objectID oid)] e.toBson] ∧
      (EmpresaRepo.Delete col id).2 = [.deleteOne [("_id", .objectID oid)]]) ∧
    (ObjectIDFromHex id = none →
      (EmpresaRepo.Get col id).2 = [.findOne [("_id", .string id)]] ∧
      (EmpresaRepo.Update col id e).2 = [.updateOne [("_id", .string id)] e.toBson] ∧
      (EmpresaRepo.Delete col id).2 = [.deleteOne [("_id", .string id)]]) ∧
    ((ObjectIDFromHex id).isSome = true ↔
      id.length = 24 ∧ ∀ c ∈ id.data, isHexDigit c = true) ∧
    ((EmpresaRepo.Get col id).1 =
      match col.FindOne (idFilter id) with
      | .error err => (none, some err)
      | .ok found => (some found, none)) ∧
    ((EmpresaRepo.Update col id e).1 =
      match col.UpdateOne (idFilter id) e.toBson with
      | some err => if err.isDuplicateKey then some (errorsNew "cnpj já cadastrado") else some err
      | none => none) ∧
    ((EmpresaRepo.Delete col id).1 =
      match col.DeleteOne (idFilter id) with
      | .error err => some err
      | .ok _ => none) ∧
    (∀ oid, ObjectIDFromHex id = some oid →
      idFilter id = [("_id", .objectID oid)] ∧
      (EmpresaRepo.Get col id).1 =
        (match col.FindOne [("_id", .objectID oid)] with
        | .error err => (none, some err)
        | .ok found => (some found, none)) ∧
      (EmpresaRepo.Delete col id).1 =
        (match col.DeleteOne [("_id", .objectID oid)] with
        | .error err => some err
        | .ok _ => none) ∧
      (col.UpdateOne [("_id", .objectID oid)] e.toBson = none →
        (EmpresaRepo.Update col id e).1 = none) ∧
      (∀ err, col.UpdateOne [("_id", .objectID oid)] e.toBson = some err →
        (EmpresaRepo.Update col id e).1 ≠ none)) ∧
    (ObjectIDFromHex id = none →
      idFilter id = [("_id", .string id)] ∧
      (EmpresaRepo.Get col id).1 =
        (match col.FindOne [("_id", .string id)] with
        | .error err => (none, some err)
        | .ok found => (some found, none)) ∧
      (EmpresaRepo.Delete col id).1 =
        (match col.DeleteOne [("_id", .string id)] with
        | .error err => some err
        | .ok _ => none) ∧
      (col.UpdateOne [("_id", .string id)] e.toBson = none →
        (EmpresaRepo.Update col id e).1 = none) ∧
      (∀ err, col.UpdateOne [("_id", .string id)] e.toBson = some err →
        (EmpresaRepo.Update col id e).1 ≠ none)) := by
  have hbranch : ∀ f : BsonDoc, idFilter id = f →
      (EmpresaRepo.Get col id).1 =
        (match col.FindOne f with
        | .error err => (none, some err)
        | .ok found => (some found, none)) ∧
      (EmpresaRepo.Delete col id).1 =
        (match col.DeleteOne f with
        | .error err => some err
        | .ok _ => none) ∧
      (col.UpdateOne f e.toBson = none → (EmpresaRepo.Update col id e).1 = none) ∧
      (∀ err, col.UpdateOne f e.toBson = some err →
        (EmpresaRepo.Update col id e).1 ≠ none) := by
    intro f hf
    subst hf
    refine ⟨EmpresaRepo_Get_result col id, EmpresaRepo_Delete_result col id, ?_, ?_⟩
    · intro h
      rw [EmpresaRepo_Update_result, h]
    · intro err h
      rw [EmpresaRepo_Update_result, h]
      dsimp only
      cases err.isDuplicateKey <;> simp
  refine ⟨EmpresaRepo_Get_calls col id, EmpresaRepo_Update_calls col id e,
    EmpresaRepo_Delete_calls col id, ?_, ?_, ObjectIDFromHex_isSome_iff id,
    EmpresaRepo_Get_result col id, EmpresaRepo_Update_result col id e,
    EmpresaRepo_Delete_result col id, ?_, ?_⟩
  · intro oid h
    have hf : idFilter id = [("_id", .objectID oid)] := by
      unfold idFilter; rw [h]
    rw [EmpresaRepo_Get_calls, EmpresaRepo_Update_calls, EmpresaRepo_Delete_calls, hf]
    exact ⟨rfl, rfl, rfl⟩
  · intro h
    have hf : idFilter id = [("_id", .string id)] := by
      unfold idFilter; rw [h]
    rw [EmpresaRepo_Get_calls, EmpresaRepo_Update_calls, EmpresaRepo_Delete_calls, hf]
    exact ⟨rfl, rfl, rfl⟩
  · intro oid h
    have hf : idFilter id = [("_id", .objectID oid)] := by
      unfold idFilter; rw [h]
    exact ⟨hf, hbranch _ hf⟩
  · intro h
    have hf : idFilter id = [("_id", .string id)] := by
      unfold idFilter; rw [h]
    exact ⟨hf, hbranch _ hf⟩

/-- On a collection that holds its one record under an object id, `Get` and
`Delete` by the 24-digit hexadecimal string reach the record, in either case of
the digits, and a string that does not decode is matched as a raw string and
misses. -/
theorem repository_id_filter_on_oidCol :
    (EmpresaRepo.Get oidCol "507f1f77bcf86cd799439011").1 =
      (some ⟨"507f1f77bcf86cd799439011", "12345678000199", "Loja X", "", "", 0, 0⟩, none) ∧
    (EmpresaRepo.Get oidCol "507F1F77BCF86CD799439011").1.2 = none ∧
    (EmpresaRepo.Get oidCol "507f1f77bcf86cd79943901").1 = (none, some ErrNoDocuments) ∧
    (EmpresaRepo.Delete oidCol "507f1f77bcf86cd799439011").2 =
      [.deleteOne [("_id", .objectID [80, 127, 31, 119, 188, 248, 108, 215, 153, 67, 144, 17])]] ∧
    (EmpresaRepo.Delete oidCol "x").2 = [.deleteOne [("_id", .string "x")]] := by
  decide

/-! ## The media types of `parseEmpresaFromRequest` -/

theorem ParseMediaType_cases (v : String) :
    ParseMediaType v = "" ∨
    ParseMediaType v = ⟨trimSpaceChars ((v.data.takeWhile (· ≠ ';')).map toLowerRune)⟩ := by
  unfold ParseMediaType
  dsimp only
  split
  · exact Or.inl rfl
  · split
    · exact Or.inl rfl
    · exact Or.inr rfl

theorem create_update_unsupported (s : Server) (r : Request) (h : ¬ acceptedMediaType r) :
    s.create r = (writeError 400 "form inválido", []) ∧
    s.update r = (writeError 400 "form inválido", []) := by
  have hp := parseEmpresaFromRequest_rejected h
  constructor
  · unfold Server.create
    rw [hp]
  · unfold Server.update
    rw [hp]

/-- C10 as stated fails: a request with no `Content-Type` header has a media
type that is neither of the two form types, yet `parseEmpresaFromRequest`
returns a record and no error for it (the empty media type is a case of the
switch), and create goes on to the store and answers 201. -/
theorem missing_content_type_accepted :
    reqNoHeader.contentType = "" ∧
    ParseMediaType reqNoHeader.contentType = "" ∧
    (parseEmpresaFromRequest reqNoHeader).2 = none ∧
    (parseEmpresaFromRequest reqNoHeader).2 ≠ some ErrNotSupported ∧
    Server.create ⟨fakeRepo, none⟩ reqNoHeader =
      (writeJSON 201 (.object [("id", "1")]),
        [.repoCreate ⟨"", "12345678000199", "", "", "", 0, 0⟩]) := by
  decide

/-- The code at a header whose media type the library rejects ("text/", a type
with no subtype, and a header that repeats a parameter with two values): the
error of `mime.ParseMediaType` is discarded, the media type it returns is
empty, and the request is decoded as a form, whereas the doc comment of
`parseEmpresaFromRequest` has an unsupported `Content-Type` return
`http.ErrNotSupported`. -/
theorem rejected_header_decoded_as_form :
    ParseMediaType reqMalformedHeader.contentType = "" ∧
    (parseEmpresaFromRequest reqMalformedHeader).2 = none ∧
    ParseMediaType reqDuplicateParam.contentType = "" ∧
    (parseEmpresaFromRequest reqDuplicateParam).2 = none := by
  decide

theorem toLowerRune_upper : ∀ n < 91, 65 ≤ n →
    toLowerRune (toLowerRune (Char.ofNat n)) = toLowerRune (Char.ofNat n) := by
  decide

theorem toLowerRune_idem (c : Char) : toLowerRune (toLowerRune c) = toLowerRune c := by
  by_cases hu : 65 ≤ c.toNat ∧ c.toNat ≤ 90
  · have := toLowerRune_upper c.toNat (by omega) hu.1
    rwa [Char.ofNat_toNat] at this
  · by_cases h1 : c.toNat = 0x130
    · have hc : toLowerRune c = 'i' := by unfold toLowerRune; rw [if_pos h1]
      rw [hc]; decide
    · by_cases h2 : c.toNat = 0x212A
      · have hc : toLowerRune c = 'k' := by unfold toLowerRune; rw [if_neg h1, if_pos h2]
        rw [hc]; decide
      · have hl : c.toLower = c := by
          unfold Char.toLower
          simp only [ge_iff_le]
          rw [if_neg hu]
        have hc : toLowerRune c = c := by
          unfold toLowerRune; rw [if_neg h1, if_neg h2, hl]
        rw [hc, hc]

theorem baseMediaType_lower (v : String) :
    (baseMediaType v).map toLowerRune = baseMediaType v := by
  have : ∀ c ∈ baseMediaType v, toLowerRune c = c := by
    intro c hc
    have hc' := trimSpaceChars_mem hc
    obtain ⟨d, _, rfl⟩ := List.mem_map.1 hc'
    exact toLowerRune_idem d
  calc (baseMediaType v).map toLowerRune
      = (baseMediaType v).map id := List.map_congr_left this
    _ = baseMediaType v := List.map_id _

theorem ParseMediaType_eq (v : String) :
    ParseMediaType v = if wellFormedMediaType v = true then ⟨baseMediaType v⟩ else "" := by
  unfold ParseMediaType wellFormedMediaType headerParamsDuplicate baseMediaType
  dsimp only
  cases h1 : checkMediaTypeDisposition
      (trimSpaceChars ((v.data.takeWhile (· ≠ ';')).map toLowerRune)) <;>
    cases h2 : paramsDuplicate (v.data.length + 1)
      (v.data.drop (v.data.takeWhile (· ≠ ';')).length) [] <;> simp

theorem lowered_media_type (v : String) :
    ToLower (ParseMediaType v) =
      if wellFormedMediaType v = true then ⟨baseMediaType v⟩ else "" := by
  rw [ParseMediaType_eq]
  by_cases h : wellFormedMediaType v = true
  · rw [if_pos h]
    show (⟨(baseMediaType v).map toLowerRune⟩ : String) = _
    rw [baseMediaType_lower]
  · rw [if_neg h]
    rfl

/-- C10 amended: `parseEmpresaFromRequest` returns the record of the form and
no error for every request whose `Content-Type` media type (the text before the
first `;`, trimmed and compared without regard to case) is
`application/x-www-form-urlencoded`, read from the form that `ParseForm`
leaves, or `multipart/form-data`, read from the form that `ParseMultipartForm`
leaves when the parameters are in order; it does so as well for a request with
no `Content-Type` header, which is read like a URL-encoded form.  For every
request whose `Content-Type` is well formed, with a media type other than these
two, it returns `http.ErrNotSupported`, and create and update answer 400
"form inválido" and call neither the store nor the publisher. -/
theorem parse_media_type_contract (r : Request) :
    (baseMediaType r.contentType = "application/x-www-form-urlencoded".data →
      parseEmpresaFromRequest r = (recordOfForm r.formParsed, none)) ∧
    (baseMediaType r.contentType = "multipart/form-data".data →
      (parseEmpresaFromRequest r).2 = none ∧
      (headerParamsDuplicate r.contentType = false →
        parseEmpresaFromRequest r = (recordOfForm r.formMultipart, none))) ∧
    (r.contentType = "" →
      parseEmpresaFromRequest r = (recordOfForm r.formParsed, none)) ∧
    (wellFormedMediaType r.contentType = true →
      baseMediaType r.contentType ≠ "application/x-www-form-urlencoded".data →
      baseMediaType r.contentType ≠ "multipart/form-data".data →
        (parseEmpresaFromRequest r).2 = some ErrNotSupported ∧
        ∀ s : Server,
          s.create r = (writeError 400 "form inválido", []) ∧
          s.update r = (writeError 400 "form inválido", [])) := by
  have hL := lowered_media_type r.contentType
  have hform : ∀ L : String, ToLower (ParseMediaType r.contentType) = L →
      HasPrefix L "multipart/" = false → r.Form = r.formParsed := by
    intro L hl hp
    unfold Request.Form
    rw [hl, hp]
    rfl
  refine ⟨?_, ?_, ?_, ?_⟩
  · intro hb
    by_cases hw : wellFormedMediaType r.contentType = true
    · rw [if_pos hw, hb] at hL
      have hacc : acceptedMediaType r := Or.inl hL
      rw [parseEmpresaFromRequest_accepted hacc, hform _ hL (by decide)]
    · rw [if_neg hw] at hL
      have hacc : acceptedMediaType r := Or.inr (Or.inr hL)
      rw [parseEmpresaFromRequest_accepted hacc, hform _ hL (by decide)]
  · intro hb
    by_cases hw : wellFormedMediaType r.contentType = true
    · rw [if_pos hw, hb] at hL
      have hacc : acceptedMediaType r := Or.inr (Or.inl hL)
      have hF : r.Form = r.formMultipart := by
        unfold Request.Form
        rw [hL]
        rfl
      rw [parseEmpresaFromRequest_accepted hacc, hF]
      exact ⟨rfl, fun _ => rfl⟩
    · rw [if_neg hw] at hL
      have hacc : acceptedMediaType r := Or.inr (Or.inr hL)
      refine ⟨by rw [parseEmpresaFromRequest_accepted hacc], fun hd => ?_⟩
      exfalso
      apply hw
      unfold wellFormedMediaType
      rw [hb, hd]
      decide
  · intro hct
    have hw : ¬ wellFormedMediaType r.contentType = true := by
      rw [hct]; decide
    rw [if_neg hw] at hL
    have hacc : acceptedMediaType r := Or.inr (Or.inr hL)
    rw [parseEmpresaFromRequest_accepted hacc, hform _ hL (by decide)]
  · intro hw h1 h2
    rw [if_pos hw] at hL
    have hne : baseMediaType r.contentType ≠ [] := by
      intro h0
      unfold wellFormedMediaType at hw
      rw [h0] at hw
      have hc : checkMediaTypeDisposition [] = false := by decide
      rw [hc] at hw
      exact absurd hw (by simp)
    have hrej : ¬ acceptedMediaType r := by
      unfold acceptedMediaType
      rw [hL]
      intro h
      rcases h with h | h | h
      · exact h1 (congrArg String.data h)
      · exact h2 (congrArg String.data h)
      · exact hne (congrArg String.data h)
    refine ⟨?_, fun s => create_update_unsupported s r hrej⟩
    rw [parseEmpresaFromRequest_rejected hrej]

theorem parse_media_type_contract_witness :
    parseEmpresaFromRequest reqLojaX = (recordOfForm reqLojaX.formParsed, none) ∧
    parseEmpresaFromRequest reqMultipart = (recordOfForm reqMultipart.formMultipart, none) ∧
    parseEmpresaFromRequest reqNoHeader = (recordOfForm reqNoHeader.formParsed, none) ∧
    (parseEmpresaFromRequest reqJSON).2 = some ErrNotSupported ∧
    Server.create ⟨fakeRepo, none⟩ reqJSON = (writeError 400 "form inválido", []) :=
  ⟨(parse_media_type_contract reqLojaX).1 (by decide),
    ((parse_media_type_contract reqMultipart).2.1 (by decide)).2 (by decide),
    (parse_media_type_contract reqNoHeader).2.2.1 rfl,
    ((parse_media_type_contract reqJSON).2.2.2 (by decide) (by decide) (by decide)).1,
    (((parse_media_type_contract reqJSON).2.2.2 (by decide) (by decide) (by decide)).2
      ⟨fakeRepo, none⟩).1⟩

/-! ## The broadcast hub -/

theorem trySend_open {cl : Client} (msg : Msg) (h : cl.outClosed = false) :
    trySend cl msg =
      some (if cl.out.length < outCap then { cl with out := cl.out ++ [msg] } else cl) := by
  unfold trySend
  rw [h]
  by_cases hlen : cl.out.length < outCap
  · simp [hlen]
  · simp [hlen]

theorem trySend_outClosed {cl cl' : Client} {msg : Msg} (h : trySend cl msg = some cl') :
    cl'.outClosed = cl.outClosed := by
  unfold trySend at h
  split at h
  · simp at h
  · split at h <;> simp at h <;> rw [← h]

theorem broadcastTo_spec (msg : Msg) :
    ∀ (l : List ClientRef) (heap : ClientRef → Client), l.Nodup →
      (∀ c ∈ l, (heap c).outClosed = false) →
      ∃ heap', broadcastTo msg l heap = some heap' ∧
        (∀ c ∈ l, heap' c =
          if (heap c).out.length < outCap then
            { heap c with out := (heap c).out ++ [msg] }
          else heap c) ∧
        (∀ c, c ∉ l → heap' c = heap c) := by
  intro l
  induction l with
  | nil =>
    intro heap _ _
    exact ⟨heap, rfl, fun c hc => absurd hc (List.not_mem_nil c), fun _ _ => rfl⟩
  | cons a t ih =>
    intro heap hnd hopen
    have ha : a ∉ t := (List.nodup_cons.1 hnd).1
    have hs := trySend_open msg (hopen a (List.mem_cons_self a t))
    have hupd : ∀ d, d ≠ a → Function.update heap a
        (if (heap a).out.length < outCap then { heap a with out := (heap a).out ++ [msg] }
          else heap a) d = heap d :=
      fun d hd => Function.update_noteq hd _ _
    obtain ⟨heap', hb, hin, hout⟩ := ih
      (Function.update heap a
        (if (heap a).out.length < outCap then { heap a with out := (heap a).out ++ [msg] }
          else heap a))
      (List.nodup_cons.1 hnd).2
      (fun c hc => by
        have hca : c ≠ a := fun h => ha (h ▸ hc)
        rw [hupd c hca]
        exact hopen c (List.mem_cons_of_mem a hc))
    refine ⟨heap', ?_, ?_, ?_⟩
    · rw [broadcastTo, hs]
      exact hb
    · intro c hc
      rcases List.mem_cons.1 hc with rfl | hc
      · rw [hout c ha, Function.update_same]
      · have hca : c ≠ a := fun h => ha (h ▸ hc)
        rw [hin c hc, hupd c hca]
    · intro c hc
      have hca : c ≠ a := fun h => hc (h ▸ List.mem_cons_self a t)
      rw [hout c (fun h => hc (List.mem_cons_of_mem a h)), hupd c hca]

/-- C7: in a hub whose registered clients are distinct and have an open `out`
(every state of a running hub), one turn of the loop on a broadcast message
completes (it does not panic and waits on no client), appends the message to
the `out` of each registered client that holds fewer than 32 messages, leaves
each registered client whose `out` holds 32 messages unchanged, leaves the map
of registered clients unchanged, and leaves every client that is not registered
unchanged. -/
theorem broadcast_step (h : Hub) (msg : Msg) (hinv : h.Inv) :
    ∃ h', h.step (.broadcast msg) = some h' ∧
      h'.clients = h.clients ∧
      (∀ c ∈ h.clients, (h.heap c).out.length < 32 →
        h'.heap c = { h.heap c with out := (h.heap c).out ++ [msg] }) ∧
      (∀ c ∈ h.clients, ¬ (h.heap c).out.length < 32 → h'.heap c = h.heap c) ∧
      (∀ c, c ∉ h.clients → h'.heap c = h.heap c) := by
  obtain ⟨heap', hb, hin, hout⟩ := broadcastTo_spec msg h.clients h.heap hinv.1 hinv.2
  refine ⟨{ h with heap := heap' }, ?_, rfl, ?_, ?_, hout⟩
  · show (match broadcastTo msg h.clients h.heap with
      | none => none
      | some heap => some { h with heap := heap }) = _
    rw [hb]
  · intro c hc hlen
    have := hin c hc
    rw [if_pos (show (h.heap c).out.length < outCap from hlen)] at this
    exact this
  · intro c hc hlen
    have := hin c hc
    rw [if_neg (show ¬ (h.heap c).out.length < outCap from hlen)] at this
    exact this

theorem broadcast_step_witness :
    hubThree.Inv ∧
    ∃ h', hubThree.step (.broadcast [104, 105]) = some h' ∧
      h'.clients = hubThree.clients ∧
      (∀ c ∈ hubThree.clients, (hubThree.heap c).out.length < 32 →
        h'.heap c = { hubThree.heap c with out := (hubThree.heap c).out ++ [[104, 105]] }) ∧
      (∀ c ∈ hubThree.clients, ¬ (hubThree.heap c).out.length < 32 →
        h'.heap c = hubThree.heap c) ∧
      (∀ c, c ∉ hubThree.clients → h'.heap c = hubThree.heap c) :=
  ⟨by decide, broadcast_step hubThree [104, 105] (by decide)⟩

theorem step_remove_mem {h : Hub} {c : ClientRef} (hc : c ∈ h.clients)
    (hopen : (h.heap c).outClosed = false) :
    h.step (.remove c) =
      some ⟨h.clients.erase c, Function.update h.heap c
        { h.heap c with outClosed := true, connCloses := (h.heap c).connCloses + 1 }⟩ := by
  show (if c ∈ h.clients then
      if (h.heap c).outClosed then none
      else some ⟨h.clients.erase c, Function.update h.heap c
        { h.heap c with outClosed := true, connCloses := (h.heap c).connCloses + 1 }⟩
    else some h) = _
  rw [if_pos hc, hopen]
  rfl

theorem step_remove_not_mem {h : Hub} {c : ClientRef} (hc : c ∉ h.clients) :
    h.step (.remove c) = some h := by
  show (if c ∈ h.clients then
      if (h.heap c).outClosed then none
      else some ⟨h.clients.erase c, Function.update h.heap c
        { h.heap c with outClosed := true, connCloses := (h.heap c).connCloses + 1 }⟩
    else some h) = _
  rw [if_neg hc]

theorem inv_after_remove {h : Hub} (c : ClientRef) (hinv : h.Inv) :
    Hub.Inv ⟨h.clients.erase c, Function.update h.heap c
      { h.heap c with outClosed := true, connCloses := (h.heap c).connCloses + 1 }⟩ := by
  refine ⟨hinv.1.erase c, ?_⟩
  intro d hd
  have hd' := (List.Nodup.mem_erase_iff hinv.1).1 hd
  show (Function.update h.heap c _ d).outClosed = false
  rw [Function.update_noteq hd'.1]
  exact hinv.2 d hd'.2

/-- C8: in a hub whose registered clients are distinct and have an open `out`,
one turn of the loop on `Remove(c)` completes; when `c` is registered it is
deleted from the map (the other keys stay), its `out`, open until then, is
closed and its connection is closed once, and no other client changes; when `c`
is not registered the state is unchanged and nothing is closed; a second
`Remove(c)` completes as well and leaves the state of the first unchanged, so
it closes nothing again and the hub loop does not panic. -/
theorem remove_idempotent (h : Hub) (c : ClientRef) (hinv : h.Inv) :
    ∃ h1, h.step (.remove c) = some h1 ∧
      h1.step (.remove c) = some h1 ∧
      (c ∈ h.clients →
        (∀ d, d ∈ h1.clients ↔ d ∈ h.clients ∧ d ≠ c) ∧
        (h.heap c).outClosed = false ∧
        h1.heap c = ⟨(h.heap c).out, true, (h.heap c).connCloses + 1⟩ ∧
        ∀ d, d ≠ c → h1.heap d = h.heap d) ∧
      (c ∉ h.clients → h1 = h) ∧
      h1.Inv := by
  by_cases hc : c ∈ h.clients
  · have hopen := hinv.2 c hc
    have hnot : c ∉ h.clients.erase c := fun hmem =>
      ((List.Nodup.mem_erase_iff hinv.1).1 hmem).1 rfl
    refine ⟨_, step_remove_mem hc hopen, step_remove_not_mem hnot, ?_, ?_,
      inv_after_remove c hinv⟩
    · intro _
      refine ⟨?_, hopen, ?_, ?_⟩
      · intro d
        rw [List.Nodup.mem_erase_iff hinv.1]
        exact ⟨fun hd => ⟨hd.2, hd.1⟩, fun hd => ⟨hd.2, hd.1⟩⟩
      · show Function.update h.heap c _ c = _
        rw [Function.update_same]
      · intro d hd
        show Function.update h.heap c _ d = _
        rw [Function.update_noteq hd]
    · intro hcn
      exact absurd hc hcn
  · exact ⟨h, step_remove_not_mem hc, step_remove_not_mem hc,
      fun hc' => absurd hc' hc, fun _ => rfl, hinv⟩

theorem remove_idempotent_witness :
    hubThree.Inv ∧
    ∃ h1, hubThree.step (.remove 1) = some h1 ∧
      h1.step (.remove 1) = some h1 ∧
      (1 ∈ hubThree.clients →
        (∀ d, d ∈ h1.clients ↔ d ∈ hubThree.clients ∧ d ≠ 1) ∧
        (hubThree.heap 1).outClosed = false ∧
        h1.heap 1 = ⟨(hubThree.heap 1).out, true, (hubThree.heap 1).connCloses + 1⟩ ∧
        ∀ d, d ≠ 1 → h1.heap d = hubThree.heap d) ∧
      (1 ∉ hubThree.clients → h1 = hubThree) ∧
      h1.Inv :=
  ⟨by decide, remove_idempotent hubThree 1 (by decide)⟩

theorem System.Step.inv {s t : System} (hst : System.Step s t) (hinv : s.Inv) : t.Inv := by
  obtain ⟨hhub, hlt, hfresh⟩ := hinv
  cases hst with
  | connect h' hstep =>
    have hnew : s.next ∉ s.hub.clients := fun hmem => Nat.lt_irrefl _ (hlt _ hmem)
    have hh : h' = ⟨s.next :: s.hub.clients, s.hub.heap⟩ := by
      have : s.hub.step (.add s.next) =
          some ⟨if s.next ∈ s.hub.clients then s.hub.clients else s.next :: s.hub.clients,
            s.hub.heap⟩ := rfl
      rw [this, if_neg hnew] at hstep
      exact (Option.some.inj hstep).symm
    subst hh
    refine ⟨⟨List.nodup_cons.2 ⟨hnew, hhub.1⟩, ?_⟩, ?_, ?_⟩
    · intro c hc
      rcases List.mem_cons.1 hc with rfl | hc
      · show (s.hub.heap _).outClosed = false
        rw [hfresh _ (Nat.le_refl _)]
        rfl
      · exact hhub.2 c hc
    · intro c hc
      rcases List.mem_cons.1 hc with rfl | hc
      · exact Nat.lt_succ_self _
      · exact Nat.lt_succ_of_lt (hlt c hc)
    · intro c hc
      exact hfresh c (Nat.le_of_succ_le hc)
  | remove c h' hstep =>
    by_cases hc : c ∈ s.hub.clients
    · rw [step_remove_mem hc (hhub.2 c hc)] at hstep
      have hh := (Option.some.inj hstep).symm
      subst hh
      refine ⟨inv_after_remove c hhub, ?_, ?_⟩
      · intro d hd
        exact hlt d (List.mem_of_mem_erase hd)
      · intro d hd
        have hdc : d ≠ c := fun h => Nat.lt_irrefl _ (Nat.lt_of_lt_of_le (hlt c hc) (h ▸ hd))
        show Function.update s.hub.heap c _ d = _
        rw [Function.update_noteq hdc]
        exact hfresh d hd
    · rw [step_remove_not_mem hc] at hstep
      have hh := (Option.some.inj hstep).symm
      subst hh
      exact ⟨hhub, hlt, hfresh⟩
  | broadcast msg h' hstep =>
    obtain ⟨heap', hb, hin, hout⟩ := broadcastTo_spec msg s.hub.clients s.hub.heap hhub.1 hhub.2
    have hh : h' = ⟨s.hub.clients, heap'⟩ := by
      have : s.hub.step (.broadcast msg) =
          match broadcastTo msg s.hub.clients s.hub.heap with
          | none => none
          | some heap => some ⟨s.hub.clients, heap⟩ := rfl
      rw [this, hb] at hstep
      exact (Option.some.inj hstep).symm
    subst hh
    refine ⟨⟨hhub.1, ?_⟩, hlt, ?_⟩
    · intro c hc
      show (heap' c).outClosed = false
      rw [hin c hc]
      split
      · exact hhub.2 c hc
      · exact hhub.2 c hc
    · intro c hc
      have hcn : c ∉ s.hub.clients := fun hmem =>
        Nat.lt_irrefl _ (Nat.lt_of_lt_of_le (hlt c hmem) hc)
      show heap' c = _
      rw [hout c hcn]
      exact hfresh c hc
  | drain c =>
    refine ⟨⟨hhub.1, ?_⟩, hlt, ?_⟩
    · intro d hd
      show (Function.update s.hub.heap c _ d).outClosed = false
      by_cases hdc : d = c
      · subst hdc
        rw [Function.update_same]
        exact hhub.2 d hd
      · rw [Function.update_noteq hdc]
        exact hhub.2 d hd
    · intro d hd
      show Function.update s.hub.heap c _ d = _
      by_cases hdc : d = c
      · subst hdc
        rw [Function.update_same, hfresh d hd]
        rfl
      · rw [Function.update_noteq hdc]
        exact hfresh d hd

/-- Every state a server reaches from `newHub` satisfies the hub invariant. -/
theorem System.Reachable.hub_inv {s : System} (h : System.Reachable s) : s.hub.Inv := by
  have : s.Inv := by
    induction h with
    | init =>
      exact ⟨⟨List.nodup_nil, fun c hc => absurd hc (List.not_mem_nil c)⟩,
        fun c hc => absurd hc (List.not_mem_nil c), fun _ _ => rfl⟩
    | step _ hst ih => exact hst.inv ih
  exact this.1

/-! ## CNPJ validation -/

theorem dropWhile_isSpace_eq_nil_iff (l : List Char) :
    l.dropWhile isSpace = [] ↔ ∀ c ∈ l, isSpace c = true := by
  constructor
  · intro h
    induction l with
    | nil => intro c hc; exact absurd hc (List.not_mem_nil c)
    | cons a t ih =>
      by_cases ha : isSpace a = true
      · simp only [List.dropWhile_cons, ha, if_true] at h
        intro c hc
        rcases List.mem_cons.1 hc with rfl | hc
        · exact ha
        · exact ih h c hc
      · simp only [List.dropWhile_cons, ha] at h
        simp at h
  · exact dropWhile_isSpace_eq_nil

theorem trimSpaceChars_eq_nil_iff (l : List Char) :
    trimSpaceChars l = [] ↔ ∀ c ∈ l, isSpace c = true := by
  constructor
  · intro h
    unfold trimSpaceChars at h
    rw [List.reverse_eq_nil_iff, dropWhile_isSpace_eq_nil_iff] at h
    have hall : ∀ c ∈ l.dropWhile isSpace, isSpace c = true :=
      fun c hc => h c (List.mem_reverse.2 hc)
    have hnil : l.dropWhile isSpace = [] := by
      cases hd : l.dropWhile isSpace with
      | nil => rfl
      | cons a t =>
        have h1 := dropWhile_isSpace_head_not_space l a t hd
        have h2 := hall a (hd ▸ List.mem_cons_self a t)
        rw [h1] at h2
        exact absurd h2 (by decide)
    exact (dropWhile_isSpace_eq_nil_iff l).1 hnil
  · exact trimSpaceChars_eq_nil

theorem TrimSpace_eq_empty_iff (s : String) :
    TrimSpace s = "" ↔ ∀ c ∈ s.data, isSpace c = true := by
  rw [← trimSpaceChars_eq_nil_iff]
  unfold TrimSpace
  constructor
  · intro h
    exact congrArg String.data h
  · intro h
    rw [h]

/-- The table of `TestValidateCNPJ`: the two CNPJs, with and without
punctuation, pass and the empty string fails. -/
theorem TestValidateCNPJ :
    ValidateCNPJ "04.252.011/0001-10" = none ∧
    ValidateCNPJ "04252011000110" = none ∧
    ValidateCNPJ "" ≠ none := by
  decide

/-- C11: for every string `ValidateCNPJ` returns an error exactly when the
string is empty after trimming leading and trailing white space, that is when
all its characters are white space; the error's message is then
"cnpj obrigatório"; every other string is accepted, whatever its characters
(no checksum, no format check). -/
theorem ValidateCNPJ_error_iff (cnpj : String) :
    (ValidateCNPJ cnpj ≠ none ↔ TrimSpace cnpj = "") ∧
    (ValidateCNPJ cnpj ≠ none ↔ ∀ c ∈ cnpj.data, isSpace c = true) ∧
    (TrimSpace cnpj = "" → ValidateCNPJ cnpj = some (errorsNew "cnpj obrigatório") ∧
      (ValidateCNPJ cnpj).map GoError.msg = some "cnpj obrigatório") ∧
    (TrimSpace cnpj ≠ "" → ValidateCNPJ cnpj = none) := by
  have hdef : ValidateCNPJ cnpj =
      if TrimSpace cnpj = "" then some (errorsNew "cnpj obrigatório") else none := rfl
  have h1 : ValidateCNPJ cnpj ≠ none ↔ TrimSpace cnpj = "" := by
    rw [hdef]
    by_cases h : TrimSpace cnpj = ""
    · rw [if_pos h]
      exact ⟨fun _ => h, fun _ => by simp⟩
    · rw [if_neg h]
      exact ⟨fun hn => absurd rfl hn, fun he => absurd he h⟩
  refine ⟨h1, ?_, ?_, ?_⟩
  · rw [h1, TrimSpace_eq_empty_iff]
  · intro h
    rw [hdef, if_pos h]
    exact ⟨rfl, rfl⟩
  · intro h
    rw [hdef, if_neg h]

/-! ## The integer fields of a decoded record -/

theorem Atoi_bounds {s : String} {n : Int} (h : Atoi s = some n) :
    -(2 : Int) ^ 63 ≤ n ∧ n < (2 : Int) ^ 63 ∧ (n < 0 → s.data.head? = some '-') := by
  unfold Atoi at h
  split at h
  · simp at h
  · rename_i ds heq
    split at h
    · simp at h
    · split at h
      · rename_i m hm
        split at h
        · rename_i hle
          have hn : n = -(m : Int) := (Option.some.inj h).symm
          subst hn
          refine ⟨?_, ?_, fun _ => by rw [heq]; rfl⟩
          · have : (m : Int) ≤ 2 ^ 63 := by exact_mod_cast hle
            omega
          · have : (0 : Int) ≤ m := Int.natCast_nonneg m
            have : (0:Int) < 2 ^ 63 := by norm_num
            omega
        · simp at h
      · simp at h
  · rename_i ds heq
    split at h
    · simp at h
    · split at h
      · rename_i m hm
        split at h
        · rename_i hlt
          have hn : n = (m : Int) := (Option.some.inj h).symm
          subst hn
          have h0 : (0 : Int) ≤ m := Int.natCast_nonneg m
          have h1 : (m : Int) < 2 ^ 63 := by exact_mod_cast hlt
          refine ⟨?_, h1, fun hneg => absurd hneg (by omega)⟩
          have : (0:Int) < 2 ^ 63 := by norm_num
          omega
        · simp at h
      · simp at h
  · split at h
    · rename_i m hm
      split at h
      · rename_i hlt
        have hn : n = (m : Int) := (Option.some.inj h).symm
        subst hn
        have h0 : (0 : Int) ≤ m := Int.natCast_nonneg m
        have h1 : (m : Int) < 2 ^ 63 := by exact_mod_cast hlt
        refine ⟨?_, h1, fun hneg => absurd hneg (by omega)⟩
        have : (0:Int) < 2 ^ 63 := by norm_num
        omega
      · simp at h
    · simp at h

theorem Atoi_getD_bounds (v : String) :
    (-(2 : Int) ^ 63 ≤ (Atoi v).getD 0 ∧ (Atoi v).getD 0 < (2 : Int) ^ 63) ∧
    (v.data.head? ≠ some '-' → 0 ≤ (Atoi v).getD 0) ∧
    ((Atoi v).getD 0 < 0 → Atoi v = some ((Atoi v).getD 0)) := by
  cases h : Atoi v with
  | none =>
    refine ⟨⟨?_, ?_⟩, fun _ => Int.le_refl 0, fun hneg => absurd hneg (by decide)⟩
    · show -(2 : Int) ^ 63 ≤ 0
      norm_num
    · show (0 : Int) < 2 ^ 63
      norm_num
  | some n =>
    obtain ⟨h1, h2, h3⟩ := Atoi_bounds h
    refine ⟨⟨h1, h2⟩, fun hhead => ?_, fun _ => rfl⟩
    show 0 ≤ n
    by_contra hneg
    exact hhead (h3 (by omega))

/-- C12 as stated fails: the URL-encoded form `num_funcionarios=-5` is accepted,
the decoded record has `NumFuncionarios = -5`, and create and update hand that
record to the store. -/
theorem negative_count_reaches_store :
    (parseEmpresaFromRequest reqNegative).2 = none ∧
    (parseEmpresaFromRequest reqNegative).1.NumFuncionarios = -5 ∧
    ¬ (0 ≤ (parseEmpresaFromRequest reqNegative).1.NumFuncionarios) ∧
    Server.create ⟨fakeRepo, none⟩ reqNegative =
      (writeJSON 201 (.object [("id", "1")]),
        [.repoCreate ⟨"", "12345678000199", "", "", "", -5, 3⟩]) ∧
    Server.update ⟨fakeRepo, none⟩ reqNegative =
      (writeJSON 200 (.object [("status", "ok")]),
        [.repoUpdate "1" ⟨"", "12345678000199", "", "", "", -5, 3⟩]) := by
  decide

theorem recordOfForm_NumFuncionarios (form : Values) :
    (recordOfForm form).NumFuncionarios
      = (Atoi (TrimSpace (form.Get "num_funcionarios"))).getD 0 := by
  unfold recordOfForm
  rfl

theorem recordOfForm_NumMinPCD (form : Values) :
    (recordOfForm form).NumMinPCD
      = (Atoi (TrimSpace (form.Get "num_min_pcd"))).getD 0 := by
  unfold recordOfForm
  rfl

/-- C12 amended: for every request that `parseEmpresaFromRequest` accepts, the
`num_funcionarios` and `num_min_pcd` of the resulting record are integers of the
64-bit `int` range; each is non-negative whenever its trimmed form value does
not begin with a minus sign, and when it is negative it is the integer that the
trimmed form value denotes; no sign check is made, so with a non-empty trimmed
`cnpj` the one store call of create and of update carries the record as
decoded, a negative count included. -/
theorem count_fields_contract (r : Request)
    (hsup : (parseEmpresaFromRequest r).2 = none) :
    (-(2 : Int) ^ 63 ≤ (parseEmpresaFromRequest r).1.NumFuncionarios ∧
      (parseEmpresaFromRequest r).1.NumFuncionarios < (2 : Int) ^ 63) ∧
    (-(2 : Int) ^ 63 ≤ (parseEmpresaFromRequest r).1.NumMinPCD ∧
      (parseEmpresaFromRequest r).1.NumMinPCD < (2 : Int) ^ 63) ∧
    ((TrimSpace (r.Form.Get "num_funcionarios")).data.head? ≠ some '-' →
      0 ≤ (parseEmpresaFromRequest r).1.NumFuncionarios) ∧
    ((TrimSpace (r.Form.Get "num_min_pcd")).data.head? ≠ some '-' →
      0 ≤ (parseEmpresaFromRequest r).1.NumMinPCD) ∧
    ((parseEmpresaFromRequest r).1.NumFuncionarios < 0 →
      Atoi (TrimSpace (r.Form.Get "num_funcionarios"))
        = some (parseEmpresaFromRequest r).1.NumFuncionarios) ∧
    ((parseEmpresaFromRequest r).1.NumMinPCD < 0 →
      Atoi (TrimSpace (r.Form.Get "num_min_pcd"))
        = some (parseEmpresaFromRequest r).1.NumMinPCD) ∧
    (TrimSpace (r.Form.Get "cnpj") ≠ "" → ∀ s : Server,
      (s.create r).2.filter Call.isStore = [.repoCreate (parseEmpresaFromRequest r).1] ∧
      (s.update r).2.filter Call.isStore
        = [.repoUpdate r.urlParamID (parseEmpresaFromRequest r).1]) := by
  have hp := parseEmpresaFromRequest_accepted ((parseEmpresaFromRequest_ok_iff r).1 hsup)
  have hf := Atoi_getD_bounds (TrimSpace (r.Form.Get "num_funcionarios"))
  have hm := Atoi_getD_bounds (TrimSpace (r.Form.Get "num_min_pcd"))
  have hrec : (parseEmpresaFromRequest r).1 = recordOfForm r.Form := by rw [hp]
  rw [hrec, recordOfForm_NumFuncionarios, recordOfForm_NumMinPCD]
  refine ⟨hf.1, hm.1, hf.2.1, hm.2.1, hf.2.2, hm.2.2, ?_⟩
  intro hcnpj s
  constructor
  · rw [create_after_validation s r hsup hcnpj]
    cases hc : s.repo.Create (recordOfForm r.Form) with
    | mk id err =>
      cases err <;> cases hpub : s.pub <;>
        simp [Server.publish, hpub, Call.isStore]
  · rw [update_after_validation s r hsup hcnpj]
    cases hd : s.repo.Update r.urlParamID (recordOfForm r.Form) <;> cases hpub : s.pub <;>
      simp [Server.publish, hpub, Call.isStore]

theorem count_fields_contract_witness :
    (parseEmpresaFromRequest reqNegative).2 = none ∧
    (-(2 : Int) ^ 63 ≤ (parseEmpresaFromRequest reqNegative).1.NumFuncionarios ∧
      (parseEmpresaFromRequest reqNegative).1.NumFuncionarios < (2 : Int) ^ 63) ∧
    ((TrimSpace (reqNegative.Form.Get "num_min_pcd")).data.head? ≠ some '-' →
      0 ≤ (parseEmpresaFromRequest reqNegative).1.NumMinPCD) :=
  ⟨by decide, (count_fields_contract reqNegative (by decide)).1,
    (count_fields_contract reqNegative (by decide)).2.2.2.1⟩

end Matriz
